import Mathlib

/-!
Verification of the match-orchestration core of a robotics-competition
simulator harness (`modules/match_utils`).  The Python code stages team code
archives into per-zone directories inside a temporary arena root, launches the
simulation engine as a subprocess, and collates logs, the score file and
recordings back into a caller-supplied archives directory.

The filesystem is modelled as an association list from paths (lists of name
components) to nodes (files with string contents, or directories).  Python
exceptions are modelled by returning the filesystem state reached so far
together with an optional error, mirroring the fact that an exception leaves
already-performed side effects in place.
-/

namespace MatchSim

/-- A filesystem path, as its list of name components. -/
abbrev Path := List String

/-- A filesystem node: a regular file with contents, or a directory. -/
inductive Node where
  | file (content : String) : Node
  | dir : Node
deriving DecidableEq, Repr

/-- A filesystem: a finite association of paths to nodes.
Lookup takes the first matching entry. -/
abbrev FS := List (Path × Node)

/-- Errors corresponding to the Python exceptions the code can raise or meet. -/
inductive Err where
  | fileNotFound
  | fileExists
  | isADirectory
  | badZipFile
deriving DecidableEq, Repr

/-- Look a path up in the filesystem (first matching entry). -/
def FS.lookup (fs : FS) (p : Path) : Option Node :=
  (List.find? (fun e => e.1 == p) fs).map (fun e => e.2)

/-- `Path.exists()`: the path has an entry (file or directory). -/
def FS.pathExists (fs : FS) (p : Path) : Bool :=
  (fs.lookup p).isSome

/-- The path exists and is a directory. -/
def FS.isDir (fs : FS) (p : Path) : Bool :=
  fs.lookup p == some Node.dir

/-- Set the node at a path, replacing any previous entry for that exact path. -/
def fsSet (fs : FS) (p : Path) (n : Node) : FS :=
  (p, n) :: fs.filter (fun e => !(e.1 == p))

/-- `shutil.rmtree`: remove the path and everything below it. -/
def rmtree (fs : FS) (p : Path) : FS :=
  fs.filter (fun e => !(p.isPrefixOf e.1))

/-- The parent directory of `p` exists (the root `[]` always exists). -/
def parentOk (fs : FS) (p : Path) : Bool :=
  p.dropLast.isEmpty || fs.isDir p.dropLast

/-- An operation on the filesystem that may raise: it returns the state
reached (side effects before the exception are kept) and an optional error. -/
abbrev FSOp := FS → FS × Option Err

/-- Sequence two fallible filesystem operations, propagating the first error. -/
def andThen (a b : FSOp) : FSOp := fun fs =>
  match a fs with
  | (fs', none) => b fs'
  | r => r

/-- `Path.write_text`: create or overwrite a file; fails if the target is a
directory or the parent directory is missing. -/
def writeText (p : Path) (c : String) : FSOp := fun fs =>
  if fs.isDir p then (fs, some Err.isADirectory)
  else if parentOk fs p then (fsSet fs p (Node.file c), none)
  else (fs, some Err.fileNotFound)

/-- `Path.mkdir(exist_ok=existOk)`: create a directory; fails if the path
exists (unless `existOk` and it is a directory) or the parent is missing. -/
def mkdir (p : Path) (existOk : Bool) : FSOp := fun fs =>
  if fs.pathExists p then
    if existOk && fs.isDir p then (fs, none) else (fs, some Err.fileExists)
  else if parentOk fs p then (fsSet fs p Node.dir, none)
  else (fs, some Err.fileNotFound)

/-- `shutil.copy(src, dst)` with `dst` a file path: copy the file contents. -/
def copyFile (src dst : Path) : FSOp := fun fs =>
  match fs.lookup src with
  | some (Node.file c) => writeText dst c fs
  | some Node.dir => (fs, some Err.isADirectory)
  | none => (fs, some Err.fileNotFound)

/-- `shutil.copy(src, dstDir)` with `dstDir` a directory: copy into the
directory keeping the source's base name. -/
def copyIntoDir (src dstDir : Path) : FSOp := fun fs =>
  copyFile src (dstDir ++ [src.getLastD ""]) fs

/-- `shutil.copytree(src, dst)`: fails with `FileExistsError` when `dst`
exists; otherwise replicates the whole subtree rooted at `src` below `dst`. -/
def copytree (src dst : Path) : FSOp := fun fs =>
  if fs.pathExists dst then (fs, some Err.fileExists)
  else if fs.isDir src then
    let moved := (fs.filter (fun e => src.isPrefixOf e.1)).map
      (fun e => (dst ++ e.1.drop src.length, e.2))
    (moved.foldl (fun a e => fsSet a e.1 e.2) fs, none)
  else (fs, some Err.fileNotFound)

/-- `ZipFile.extractall(target)`: write every archive entry below `target`. -/
def extractall (entries : List (Path × Node)) (target : Path) (fs : FS) : FS :=
  entries.foldl (fun a e => fsSet a (target ++ e.1) e.2) fs

/-- Association lookup among archive entries (relative path to node). -/
def entryFind (entries : List (Path × Node)) (rel : Path) : Option Node :=
  (List.find? (fun e => e.1 == rel) entries).map (fun e => e.2)

/-- The keys of an entry list are pairwise distinct. -/
def nodupKeys : List (Path × Node) → Bool
  | [] => true
  | e :: es => !(es.any (fun x => x.1 == e.1)) && nodupKeys es

/-- First-some choice on optional nodes. -/
def optOr (a b : Option Node) : Option Node :=
  match a with
  | some n => some n
  | none => b

/-! ### The match orchestrator's data and configuration -/

/-- `MatchData` as constructed by `construct_match_data`: match number,
per-zone team assignment (`none` for an empty zone), duration, and the
recording configuration (always `none`, meaning the engine default). -/
structure MatchData where
  match_number : Nat
  teams : List (Option String)
  duration : Nat
  recording_config : Option Unit := none
deriving DecidableEq

/-- Modelled from the spec: the path-provider and serialization interface of
the external `controller_utils` module, which is not part of the sources under
verification.  Each field abstracts the named helper: `zonePath i` is
`get_zone_robot_file_path(i).parent`, `modeFile` is `get_mode_file()`,
`matchFile` is `get_match_file()`, `supervisorLog` is
`get_competition_supervisor_log_filepath()`, `recStemDir`/`recStemName` split
`get_recording_stem()` into parent directory and name, `robotLogFilename i` is
`get_robot_log_filename(i)`, `decodeZip` interprets a string as zip-archive
contents (`none` for a corrupt archive), and `serializeMatch` is the
serialization `record_match_data` writes into the workspace. -/
structure Ctx where
  zonePath : Nat → Path
  modeFile : Path
  matchFile : Path
  supervisorLog : Path
  recStemDir : Path
  recStemName : String
  robotLogFilename : Nat → String
  decodeZip : String → Option (List (Path × Node))
  serializeMatch : MatchData → String

/-- The path of a team's code archive: `{archives_dir}/{tla}.zip`. -/
def zipPath (archivesDir : Path) (tla : String) : Path :=
  archivesDir ++ [tla ++ ".zip"]

/-- `construct_match_data`: the dash placeholder denotes an empty zone. -/
def construct_match_data (match_num : Nat) (tla : List String) (duration : Nat) :
    MatchData :=
  ⟨match_num, tla.map (fun t => if t = "-" then none else some t), duration, none⟩

/-- `if zone_path.exists(): shutil.rmtree(zone_path)`. -/
def clearZone (zp : Path) (fs : FS) : FS :=
  if fs.pathExists zp then rmtree fs zp else fs

/-- `with ZipFile(f'{archives_dir / tla}.zip') as zipfile:
zipfile.extractall(zone_path)`: opening raises `FileNotFoundError` when the
zip is missing (`IsADirectoryError` when it is a directory) and `BadZipFile`
when it cannot be decoded as an archive. -/
def extractTeam (ctx : Ctx) (archivesDir : Path) (zp : Path) (t : String) :
    FSOp := fun fs =>
  match fs.lookup (zipPath archivesDir t) with
  | none => (fs, some Err.fileNotFound)
  | some Node.dir => (fs, some Err.isADirectory)
  | some (Node.file c) =>
      match ctx.decodeZip c with
      | none => (fs, some Err.badZipFile)
      | some entries => (extractall entries zp fs, none)

/-- One iteration of `prepare_match`'s zone loop: remove a pre-existing zone
directory, then (for an assigned zone) create it and extract the team's
archive into it. -/
def stageZone (ctx : Ctx) (archivesDir : Path) (zone_id : Nat)
    (tla : Option String) : FSOp := fun fs =>
  match tla with
  | none => (clearZone (ctx.zonePath zone_id) fs, none)
  | some t =>
      andThen (mkdir (ctx.zonePath zone_id) false)
        (extractTeam ctx archivesDir (ctx.zonePath zone_id) t)
        (clearZone (ctx.zonePath zone_id) fs)

/-- `prepare_match`'s `for zone_id, tla in enumerate(match_data.teams)` loop,
starting at zone index `i`. -/
def stageZones (ctx : Ctx) (archivesDir : Path) :
    List (Option String) → Nat → FSOp
  | [], _ => fun fs => (fs, none)
  | t :: ts, i =>
      andThen (stageZone ctx archivesDir i t) (stageZones ctx archivesDir ts (i + 1))

/-- `Match.prepare_match`: write the competition-mode marker, record the match
data, then stage every zone in order. -/
def prepare_match (ctx : Ctx) (archivesDir : Path) (md : MatchData) : FSOp :=
  andThen (writeText ctx.modeFile "comp\n")
    (andThen (writeText ctx.matchFile (ctx.serializeMatch md))
      (stageZones ctx archivesDir md.teams 0))

/-! ### Process-level state: environment, arena-root global, console output -/

/-- Render a path the way `str(Path(...))` joins its components. -/
def pathStr (p : Path) : String := String.intercalate "/" p

/-- Set an environment variable. -/
def envSet (env : List (String × String)) (k v : String) : List (String × String) :=
  (k, v) :: env.filter (fun e => !(e.1 == k))

/-- Read an environment variable. -/
def envGet (env : List (String × String)) (k : String) : Option String :=
  (List.find? (fun e => e.1 == k) env).map (fun e => e.2)

/-- The process-wide state the orchestrator manipulates: the filesystem, the
environment variables, the `controller_utils.ARENA_ROOT` module global, and
the console output printed so far. -/
structure World where
  fs : FS
  env : List (String × String)
  arenaRoot : Path
  output : List String
deriving DecidableEq

/-- How a piece of orchestration code finishes: normal return, `exit(code)`
(`SystemExit`), or an uncaught exception. -/
inductive Outcome where
  | ok : Outcome
  | exited (code : Nat) : Outcome
  | raised (e : Err) : Outcome
deriving DecidableEq, Repr

/-- The behavior of the external `webots` engine subprocess: the executable is
missing, or it runs — applying some effect to the filesystem (its own log,
score and recording output) — and exits with a code. -/
inductive Engine where
  | notFound : Engine
  | run (effect : FS → FS) (code : Nat) : Engine

/-- `Match.print_error`: ANSI-styled error text, bolded when `strong`. -/
def styleError (strong : Bool) (message : String) : String :=
  (if strong then "\x1b[1m" else "") ++ "\x1b[91m" ++ message ++ "\x1b[0m"

/-- The diagnostic for a missing engine executable. -/
def webotsMissingMsg : String :=
  "Could not find webots. Check that you have it installed and on your PATH"

/-- The diagnostic for a non-zero engine exit with no supervisor log. -/
def noLogsMsg (code : Nat) : String :=
  "Simulation errored (exit code " ++ toString code ++
    "). No supervisor logs were found - Webots may have crashed."

/-- The diagnostic for a non-zero engine exit whose log was printed above. -/
def logsAboveMsg (code : Nat) : String :=
  "Simulation errored (exit code " ++ toString code ++
    "). Competition supervisor logs are above."

/-- `Match.run_match`: launch the engine and classify the outcome.  A missing
executable or a non-zero exit prints diagnostics and calls `exit(1)`; on a
non-zero exit with a supervisor log present the log body is printed before
the bolded summary. -/
def run_match (ctx : Ctx) (engine : Engine) (w : World) : World × Outcome :=
  match engine with
  | Engine.notFound =>
      ({ w with output := w.output ++ [styleError true webotsMissingMsg] },
        Outcome.exited 1)
  | Engine.run effect code =>
      let w1 : World := { w with fs := effect w.fs }
      if code = 0 then (w1, Outcome.ok)
      else
        match w1.fs.lookup ctx.supervisorLog with
        | some (Node.file log_text) =>
            ({ w1 with output := w1.output ++
                [styleError false log_text, styleError true (logsAboveMsg code)] },
              Outcome.exited 1)
        | some Node.dir => (w1, Outcome.raised Err.isADirectory)
        | none =>
            ({ w1 with output := w1.output ++ [styleError true (noLogsMsg code)] },
              Outcome.exited 1)

/-- One iteration of `collate_logs`: create the team directory and copy the
zone's robot log into it. -/
def collateZone (ctx : Ctx) (archivesDir : Path) (zone_id : Nat)
    (tla : Option String) : FSOp := fun fs =>
  match tla with
  | none => (fs, none)
  | some t =>
      let log_path := ctx.zonePath zone_id ++ [ctx.robotLogFilename zone_id]
      andThen (mkdir (archivesDir ++ [t]) true)
        (copyIntoDir log_path (archivesDir ++ [t])) fs

/-- `collate_logs`' zone loop starting at index `i`. -/
def collateZones (ctx : Ctx) (archivesDir : Path) :
    List (Option String) → Nat → FSOp
  | [], _ => fun fs => (fs, none)
  | t :: ts, i =>
      andThen (collateZone ctx archivesDir i t) (collateZones ctx archivesDir ts (i + 1))

/-- `Match.collate_logs`: copy each assigned zone's log next to the team's
code archive. -/
def collate_logs (ctx : Ctx) (archivesDir : Path) (md : MatchData) : FSOp :=
  collateZones ctx archivesDir md.teams 0

/-- The `{match_number:0>3}` format: right-align in width 3, filling with 0. -/
def pad3 (n : Nat) : String :=
  let s := toString n
  String.mk (List.replicate (3 - s.length) '0') ++ s

/-- The archived match file's name, `{match_number:0>3}.yaml`. -/
def matchFileName (match_number : Nat) : String := pad3 match_number ++ ".yaml"

/-- `Match.archive_match_file`: create `matches/` if needed and copy the score
file to its SRComp name. -/
def archive_match_file (ctx : Ctx) (archivesDir : Path) (md : MatchData) : FSOp :=
  andThen (mkdir (archivesDir ++ ["matches"]) true)
    (copyFile ctx.matchFile (archivesDir ++ ["matches", matchFileName md.match_number]))

/-- The entries matched by `recording_stem.parent.glob(f'{recording_stem.name}.*')`. -/
def globMatches (ctx : Ctx) (fs : FS) : List (Path × Node) :=
  fs.filter (fun e =>
    (e.1.dropLast == ctx.recStemDir) &&
      ((ctx.recStemName ++ ".").data.isPrefixOf (e.1.getLastD "").data))

/-- The `for path in recording_stem.parent.glob(...): shutil.copy(path,
recordings_dir)` loop: copy each matched entry into the recordings directory,
stopping at the first error. -/
def copyRecordings (rd : Path) : List (Path × Node) → FSOp
  | [] => fun fs => (fs, none)
  | e :: l => andThen (copyIntoDir e.1 rd) (copyRecordings rd l)

/-- `Match.archive_match_recordings`: create `recordings/`, copy every file
sharing the recording stem into it, then copy the `textures` directory,
ignoring `FileExistsError` when it is already there. -/
def archive_match_recordings (ctx : Ctx) (archivesDir : Path) : FSOp := fun fs =>
  let recordings_dir := archivesDir ++ ["recordings"]
  match mkdir recordings_dir true fs with
  | (fs1, some e) => (fs1, some e)
  | (fs1, none) =>
      match copyRecordings recordings_dir (globMatches ctx fs1) fs1 with
      | (fs2, some e) => (fs2, some e)
      | (fs2, none) =>
          match copytree (ctx.recStemDir ++ ["textures"])
              (recordings_dir ++ ["textures"]) fs2 with
          | (fs3, some Err.fileExists) => (fs3, none)
          | r => r

/-- The message `print(f"Using {tmpdir_name!r} as the arena")` emits. -/
def usingArenaMsg (tmpdir : Path) : String :=
  "Using " ++ "'" ++ pathStr tmpdir ++ "'" ++ " as the arena"

/-- `Match.temporary_arena_root`: create the temporary directory, point the
environment variable and the `controller_utils.ARENA_ROOT` global at it, run
the body, and in a `finally` block restore both to the saved original; the
`TemporaryDirectory` context then removes the directory tree.  The body's
outcome (normal, `SystemExit` or exception) is propagated unchanged. -/
def temporary_arena_root (tmpdir : Path) (body : World → World × Outcome)
    (w : World) : World × Outcome :=
  let original_arena_root := w.arenaRoot
  let w1 : World := { w with
    fs := fsSet w.fs tmpdir Node.dir,
    output := w.output ++ [usingArenaMsg tmpdir] }
  let w2 : World := { w1 with
    env := envSet w1.env "ARENA_ROOT" (pathStr tmpdir),
    arenaRoot := tmpdir }
  let br := body w2
  let w4 : World := { br.1 with
    env := envSet br.1.env "ARENA_ROOT" (pathStr original_arena_root),
    arenaRoot := original_arena_root }
  let w5 : World := { w4 with fs := rmtree w4.fs tmpdir }
  (w5, br.2)

/-- Run a filesystem operation inside the world, turning its optional error
into an uncaught-exception outcome. -/
def liftFS (op : FSOp) (w : World) : World × Outcome :=
  match op w.fs with
  | (fs, none) => ({ w with fs := fs }, Outcome.ok)
  | (fs, some e) => ({ w with fs := fs }, Outcome.raised e)

/-- The body of `Match.main`'s workspace scope: stage, run the engine, and on
success collate logs, the match file and the recordings.  The first non-`ok`
outcome aborts the rest. -/
def mainBody (ctx : Ctx) (engine : Engine) (archivesDir : Path) (md : MatchData)
    (w : World) : World × Outcome :=
  match liftFS (prepare_match ctx archivesDir md) w with
  | (w1, Outcome.ok) =>
      match run_match ctx engine w1 with
      | (w2, Outcome.ok) =>
          match liftFS (collate_logs ctx archivesDir md) w2 with
          | (w3, Outcome.ok) =>
              match liftFS (archive_match_file ctx archivesDir md) w3 with
              | (w4, Outcome.ok) => liftFS (archive_match_recordings ctx archivesDir) w4
              | r => r
          | r => r
      | r => r
  | r => r

/-- `Match.main`: run the whole match inside the temporary arena root scope. -/
def main (ctx : Ctx) (engine : Engine) (archivesDir : Path) (tmpdir : Path)
    (md : MatchData) (w : World) : World × Outcome :=
  temporary_arena_root tmpdir (mainBody ctx engine archivesDir md) w

/-! ### Decidable layout side conditions for staging -/

/-- Layout separation for one assigned team's archive: no zone directory of
the first `n` zones sits above the team's zip, and neither marker file is the
zip itself. -/
def zipSeparated (ctx : Ctx) (ad : Path) (n : Nat) (ot : Option String) : Bool :=
  match ot with
  | none => true
  | some t =>
      ((List.range n).all
        (fun a => !((ctx.zonePath a).isPrefixOf (zipPath ad t)))) &&
      !(ctx.modeFile == zipPath ad t) && !(ctx.matchFile == zipPath ad t)

/-- The arena layout is separated the way a real layout is: zone directories
are mutually non-nested, contain neither marker file, and no zone directory
sits above any assigned team's zip. -/
def stagingSeparated (ctx : Ctx) (ad : Path) (ts : List (Option String)) : Bool :=
  ((List.range ts.length).all (fun a =>
    ((List.range ts.length).all (fun b =>
      (a == b) || !((ctx.zonePath a).isPrefixOf (ctx.zonePath b)))) &&
    !((ctx.zonePath a).isPrefixOf ctx.modeFile) &&
    !((ctx.zonePath a).isPrefixOf ctx.matchFile))) &&
  ts.all (zipSeparated ctx ad ts.length)

/-- Children-imply-parent at the zone roots: every filesystem entry below a
zone path forces the zone path itself to exist (true of any real
filesystem). -/
def zonesClosed (ctx : Ctx) (ts : List (Option String)) (fs : FS) : Bool :=
  (List.range ts.length).all (fun a =>
    FS.pathExists fs (ctx.zonePath a) ||
    fs.all (fun e => !((ctx.zonePath a).isPrefixOf e.1)))

/-- One team's zip decodes (when it decodes) to entries with distinct
non-empty member names, as real zip archives have. -/
def zipEntryOk (ctx : Ctx) (ad : Path) (fs : FS) (ot : Option String) : Bool :=
  match ot with
  | none => true
  | some t =>
      match fs.lookup (zipPath ad t) with
      | some (Node.file c) =>
          match ctx.decodeZip c with
          | some es => nodupKeys es && es.all (fun en => !(en.1.isEmpty))
          | none => true
      | some Node.dir => true
      | none => true

/-- Every assigned team's zip is well formed in the sense of `zipEntryOk`. -/
def zipsWellFormed (ctx : Ctx) (ad : Path) (ts : List (Option String))
    (fs : FS) : Bool :=
  ts.all (zipEntryOk ctx ad fs)

/-! ### Concrete configurations and filesystems used to exercise the model -/

/-- A concrete path-provider configuration for exercising the orchestration on
explicit filesystems: every workspace path lives under `arena/`, and a string
decodes as a one-file archive unless it is the marker `BAD`. -/
def ctx0 : Ctx where
  zonePath := fun i => ["arena", "zone-" ++ toString i]
  modeFile := ["arena", "mode.txt"]
  matchFile := ["arena", "match.json"]
  supervisorLog := ["arena", "supervisor.log"]
  recStemDir := ["arena", "rec"]
  recStemName := "clip"
  robotLogFilename := fun i => "log-zone-" ++ toString i ++ ".txt"
  decodeZip := fun c =>
    if c = "BAD" then none else some [(["robot.py"], Node.file c)]
  serializeMatch := fun md => "match " ++ toString md.match_number

/-- A concrete starting world: an archives directory and nothing else. -/
def w0 : World := ⟨[(["ad"], Node.dir)], [], ["prev"], []⟩

/-- A concrete match with no assigned zones. -/
def md0 : MatchData := ⟨7, [], 150, none⟩

/-- The workspace contents `prepare_match` produces for `md0` from `w0`
inside the temporary root `arena/`. -/
def fs1c : FS :=
  [(["arena", "match.json"], Node.file "match 7"),
   (["arena", "mode.txt"], Node.file "comp\n"),
   (["arena"], Node.dir),
   (["ad"], Node.dir)]

/-- A concrete engine filesystem effect: write the supervisor log. -/
def eff0 : FS → FS := fun fs =>
  fsSet fs ["arena", "supervisor.log"] (Node.file "error X")

/-- A concrete two-zone match: team `abc` in zone 0, zone 1 empty. -/
def mdC1 : MatchData := ⟨3, [some "abc", none], 150, none⟩

/-- A concrete fresh workspace plus archives directory with `abc.zip`. -/
def fsC1 : FS :=
  [(["arena"], Node.dir), (["ad"], Node.dir),
   (["ad", "abc.zip"], Node.file "code")]

/-- The result of staging `mdC1` on `fsC1`. -/
def fsC1' : FS :=
  [(["arena", "zone-0", "robot.py"], Node.file "code"),
   (["arena", "zone-0"], Node.dir),
   (["arena", "match.json"], Node.file "match 3"),
   (["arena", "mode.txt"], Node.file "comp\n"),
   (["arena"], Node.dir),
   (["ad"], Node.dir),
   (["ad", "abc.zip"], Node.file "code")]

/-- A concrete filesystem holding a produced score file and the archives
directory. -/
def fsC6 : FS := [(["arena", "match.json"], Node.file "scores"), (["ad"], Node.dir)]

/-- A concrete post-match filesystem with two recording files sharing the
stem `clip` and a shared textures directory. -/
def fsC5 : FS :=
  [(["ad"], Node.dir),
   (["arena"], Node.dir),
   (["arena", "rec"], Node.dir),
   (["arena", "rec", "clip.mp4"], Node.file "video"),
   (["arena", "rec", "clip.srt"], Node.file "subs"),
   (["arena", "rec", "textures"], Node.dir),
   (["arena", "rec", "textures", "wood.png"], Node.file "px")]

/-- The result of archiving `fsC6`'s score file for match 7. -/
def fsC6' : FS :=
  [(["ad", "matches", "007.yaml"], Node.file "scores"),
   (["ad", "matches"], Node.dir),
   (["arena", "match.json"], Node.file "scores"),
   (["ad"], Node.dir)]

/-! ### Pointwise lookup lemmas for the primitive operations -/

theorem FS.lookup_nil (p : Path) : FS.lookup [] p = none := rfl

theorem FS.lookup_cons (e : Path × Node) (fs : FS) (p : Path) :
    FS.lookup (e :: fs) p = if e.1 = p then some e.2 else fs.lookup p := by
  simp only [FS.lookup, List.find?_cons]
  by_cases h : e.1 = p
  · simp [h]
  · simp [h, beq_eq_false_iff_ne.2 h]

theorem lookup_filter_key (pred : Path → Bool) (fs : FS) (q : Path) :
    FS.lookup (fs.filter (fun e => !(pred e.1))) q =
      if pred q then none else fs.lookup q := by
  induction fs with
  | nil => simp [FS.lookup_nil]
  | cons e fs ih =>
    by_cases hpe : pred e.1
    · rw [show List.filter (fun e => !(pred e.1)) (e :: fs)
          = List.filter (fun e => !(pred e.1)) fs by simp [List.filter, hpe]]
      rw [ih, FS.lookup_cons]
      by_cases heq : e.1 = q
      · subst heq; simp [hpe]
      · simp [heq]
    · rw [show List.filter (fun e => !(pred e.1)) (e :: fs)
          = e :: List.filter (fun e => !(pred e.1)) fs by simp [List.filter, hpe]]
      rw [FS.lookup_cons, FS.lookup_cons, ih]
      by_cases heq : e.1 = q
      · subst heq; simp [hpe]
      · simp [heq]

theorem lookup_fsSet (fs : FS) (p : Path) (n : Node) (q : Path) :
    FS.lookup (fsSet fs p n) q = if p = q then some n else fs.lookup q := by
  unfold fsSet
  rw [FS.lookup_cons]
  by_cases h : p = q
  · simp [h]
  · simp only [h, if_false]
    have : (fun e : Path × Node => !(e.1 == p)) = (fun e => !((fun x => x == p) e.1)) := rfl
    rw [this, lookup_filter_key (fun x => x == p) fs q]
    have hq : (q == p) = false := beq_eq_false_iff_ne.2 (fun hq => h hq.symm)
    simp [hq]

theorem lookup_rmtree (fs : FS) (p : Path) (q : Path) :
    FS.lookup (rmtree fs p) q = if p <+: q then none else fs.lookup q := by
  unfold rmtree
  have : (fun e : Path × Node => !(p.isPrefixOf e.1))
      = (fun e => !((fun x => p.isPrefixOf x) e.1)) := rfl
  rw [this, lookup_filter_key (fun x => p.isPrefixOf x) fs q]
  by_cases h : p <+: q
  · simp [List.isPrefixOf_iff_prefix.2 h, h]
  · have : p.isPrefixOf q = false := by
      by_contra hb
      exact h (List.isPrefixOf_iff_prefix.1 (by simpa using hb))
    simp [this, h]

theorem optOr_some (n : Node) (b : Option Node) : optOr (some n) b = some n := rfl

theorem optOr_none (b : Option Node) : optOr none b = b := rfl

theorem nodupKeys_cons (e : Path × Node) (es : List (Path × Node))
    (h : nodupKeys (e :: es) = true) :
    (es.any (fun x => x.1 == e.1)) = false ∧ nodupKeys es = true := by
  unfold nodupKeys at h
  rw [Bool.and_eq_true, Bool.not_eq_true'] at h
  exact h

theorem lookup_extractall (entries : List (Path × Node)) (target : Path) (fs : FS)
    (q : Path) (hnd : nodupKeys entries = true) :
    FS.lookup (extractall entries target fs) q =
      if target <+: q then
        optOr (FS.lookup entries (q.drop target.length)) (fs.lookup q)
      else fs.lookup q := by
  induction entries generalizing fs with
  | nil =>
    by_cases h : target <+: q <;> simp [extractall, FS.lookup_nil, optOr_none, h]
  | cons e es ih =>
    obtain ⟨hnd1, hnd2⟩ := nodupKeys_cons e es hnd
    have hstep : extractall (e :: es) target fs
        = extractall es target (fsSet fs (target ++ e.1) e.2) := rfl
    rw [hstep, ih _ hnd2]
    by_cases hpre : target <+: q
    · have hq : target ++ q.drop target.length = q := List.prefix_iff_eq_append.1 hpre
      rw [if_pos hpre, if_pos hpre, FS.lookup_cons]
      by_cases hrel : e.1 = q.drop target.length
      · have hnotin : FS.lookup es (q.drop target.length) = none := by
          unfold FS.lookup
          rw [List.find?_eq_none.2]
          · rfl
          · intro x hx
            have hxe : (x.1 == e.1) = false := by
              by_contra hb
              have : es.any (fun x => x.1 == e.1) = true :=
                List.any_eq_true.2 ⟨x, hx, by simpa using hb⟩
              rw [hnd1] at this; exact Bool.noConfusion this
            simpa [hrel] using hxe
        have heq : target ++ e.1 = q := by rw [hrel]; exact hq
        rw [hnotin, optOr_none, if_pos hrel, lookup_fsSet, if_pos heq, optOr_some]
      · rw [if_neg hrel]
        rcases hlo : FS.lookup es (q.drop target.length) with _ | n
        · have hne : ¬ target ++ e.1 = q := fun hqe =>
            hrel (List.append_cancel_left (hqe.trans hq.symm))
          rw [optOr_none, optOr_none, lookup_fsSet, if_neg hne]
        · rw [optOr_some, optOr_some]
    · have hne : ¬ target ++ e.1 = q := fun hqe =>
        hpre (hqe ▸ List.prefix_append target e.1)
      rw [if_neg hpre, if_neg hpre, lookup_fsSet, if_neg hne]

/-! ### Environment lemmas -/

theorem envGet_envSet (env : List (String × String)) (k v : String) :
    envGet (envSet env k v) k = some v := by
  unfold envGet envSet
  rw [List.find?_cons_of_pos _ (by simp)]
  rfl

/-! ### Decomposition and frame lemmas for the staging operations -/

theorem andThen_ok (a b : FSOp) (fs fs' : FS) (h : a fs = (fs', none)) :
    andThen a b fs = b fs' := by
  unfold andThen; rw [h]

theorem andThen_err (a b : FSOp) (fs fs' : FS) (e : Err)
    (h : a fs = (fs', some e)) : andThen a b fs = (fs', some e) := by
  unfold andThen; rw [h]

theorem writeText_ok (p : Path) (c : String) (fs fs' : FS)
    (h : writeText p c fs = (fs', none)) : fs' = fsSet fs p (Node.file c) := by
  unfold writeText at h
  by_cases h1 : fs.isDir p = true
  · rw [if_pos h1] at h; injection h with _ hs; exact Option.noConfusion hs
  · rw [if_neg h1] at h
    by_cases h2 : parentOk fs p = true
    · rw [if_pos h2] at h; injection h with hf _; exact hf.symm
    · rw [if_neg h2] at h; injection h with _ hs; exact Option.noConfusion hs

theorem mkdir_ok (p : Path) (existOk : Bool) (fs fs' : FS)
    (h : mkdir p existOk fs = (fs', none)) :
    (fs.pathExists p = false ∧ parentOk fs p = true ∧ fs' = fsSet fs p Node.dir) ∨
      (existOk = true ∧ fs.isDir p = true ∧ fs' = fs) := by
  unfold mkdir at h
  by_cases h1 : fs.pathExists p = true
  · rw [if_pos h1] at h
    by_cases h2 : (existOk && fs.isDir p) = true
    · rw [if_pos h2] at h
      rw [Bool.and_eq_true] at h2
      injection h with hf _
      exact Or.inr ⟨h2.1, h2.2, hf.symm⟩
    · rw [if_neg h2] at h; injection h with _ hs; exact Option.noConfusion hs
  · rw [if_neg h1] at h
    by_cases h2 : parentOk fs p = true
    · rw [if_pos h2] at h
      injection h with hf _
      exact Or.inl ⟨Bool.eq_false_iff.2 h1, h2, hf.symm⟩
    · rw [if_neg h2] at h; injection h with _ hs; exact Option.noConfusion hs

theorem writeText_fst_lookup (p : Path) (c : String) (fs : FS) (q : Path)
    (h : q ≠ p) : FS.lookup ((writeText p c fs).1) q = fs.lookup q := by
  unfold writeText
  by_cases h1 : fs.isDir p = true
  · rw [if_pos h1]
  · rw [if_neg h1]
    by_cases h2 : parentOk fs p = true
    · rw [if_pos h2]
      show FS.lookup (fsSet fs p (Node.file c)) q = fs.lookup q
      rw [lookup_fsSet, if_neg (fun he => h he.symm)]
    · rw [if_neg h2]

theorem mkdir_fst_lookup (p : Path) (existOk : Bool) (fs : FS) (q : Path)
    (h : q ≠ p) : FS.lookup ((mkdir p existOk fs).1) q = fs.lookup q := by
  unfold mkdir
  by_cases h1 : fs.pathExists p = true
  · rw [if_pos h1]
    by_cases h2 : (existOk && fs.isDir p) = true
    · rw [if_pos h2]
    · rw [if_neg h2]
  · rw [if_neg h1]
    by_cases h2 : parentOk fs p = true
    · rw [if_pos h2]
      show FS.lookup (fsSet fs p Node.dir) q = fs.lookup q
      rw [lookup_fsSet, if_neg (fun he => h he.symm)]
    · rw [if_neg h2]

theorem lookup_extractall_frame (entries : List (Path × Node)) (target : Path)
    (fs : FS) (q : Path) (h : ¬ target <+: q) :
    FS.lookup (extractall entries target fs) q = fs.lookup q := by
  induction entries generalizing fs with
  | nil => rfl
  | cons e es ih =>
    have hstep : extractall (e :: es) target fs
        = extractall es target (fsSet fs (target ++ e.1) e.2) := rfl
    have hne : ¬ target ++ e.1 = q := fun hqe =>
      h (hqe ▸ List.prefix_append target e.1)
    rw [hstep, ih, lookup_fsSet, if_neg hne]

theorem clearZone_frame (zp : Path) (fs : FS) (q : Path) (h : ¬ zp <+: q) :
    FS.lookup (clearZone zp fs) q = fs.lookup q := by
  unfold clearZone
  by_cases hex : fs.pathExists zp = true
  · rw [if_pos hex, lookup_rmtree, if_neg h]
  · rw [if_neg hex]

theorem extractTeam_frame (ctx : Ctx) (ad zp : Path) (t : String) (fs : FS)
    (q : Path) (h : ¬ zp <+: q) :
    FS.lookup ((extractTeam ctx ad zp t fs).1) q = fs.lookup q := by
  unfold extractTeam
  rcases hz : fs.lookup (zipPath ad t) with _ | n
  · rfl
  · cases n with
    | dir => rfl
    | file c =>
      show (match ctx.decodeZip c with
        | none => (fs, some Err.badZipFile)
        | some entries => (extractall entries zp fs, none)).1.lookup q = fs.lookup q
      rcases hd : ctx.decodeZip c with _ | entries
      · rfl
      · exact lookup_extractall_frame entries zp fs q h

theorem stageZone_frame (ctx : Ctx) (ad : Path) (i : Nat) (t : Option String)
    (fs : FS) (q : Path) (h : ¬ ctx.zonePath i <+: q) :
    FS.lookup ((stageZone ctx ad i t fs).1) q = fs.lookup q := by
  have hne : q ≠ ctx.zonePath i := fun he => h (by rw [he])
  unfold stageZone
  cases t with
  | none => exact clearZone_frame _ _ _ h
  | some tname =>
    show FS.lookup ((andThen (mkdir (ctx.zonePath i) false)
      (extractTeam ctx ad (ctx.zonePath i) tname)
      (clearZone (ctx.zonePath i) fs)).1) q = fs.lookup q
    rcases hmk : mkdir (ctx.zonePath i) false (clearZone (ctx.zonePath i) fs)
      with ⟨fs2, e?⟩
    have hmf : FS.lookup fs2 q = FS.lookup (clearZone (ctx.zonePath i) fs) q := by
      have hm := mkdir_fst_lookup (ctx.zonePath i) false
        (clearZone (ctx.zonePath i) fs) q hne
      rw [hmk] at hm; exact hm
    cases e? with
    | none =>
      rw [andThen_ok _ _ _ _ hmk, extractTeam_frame _ _ _ _ _ _ h, hmf]
      exact clearZone_frame _ _ _ h
    | some e =>
      rw [andThen_err _ _ _ _ _ hmk]
      exact hmf.trans (clearZone_frame _ _ _ h)

theorem stageZones_frame (ctx : Ctx) (ad : Path) (ts : List (Option String))
    (i : Nat) (fs : FS) (q : Path)
    (h : ∀ k, i ≤ k → k < i + ts.length → ¬ ctx.zonePath k <+: q) :
    FS.lookup ((stageZones ctx ad ts i fs).1) q = fs.lookup q := by
  induction ts generalizing i fs with
  | nil => rfl
  | cons t ts ih =>
    have h0 : ¬ ctx.zonePath i <+: q :=
      h i (Nat.le_refl i) (by simp only [List.length_cons]; omega)
    have hrec : ∀ k, i + 1 ≤ k → k < (i + 1) + ts.length →
        ¬ ctx.zonePath k <+: q := by
      intro k hk1 hk2
      exact h k (by omega) (by simp only [List.length_cons]; omega)
    show FS.lookup
      ((andThen (stageZone ctx ad i t) (stageZones ctx ad ts (i + 1)) fs).1) q = _
    rcases hsz : stageZone ctx ad i t fs with ⟨fs', e?⟩
    have hsf : FS.lookup fs' q = fs.lookup q := by
      have hs := stageZone_frame ctx ad i t fs q h0
      rw [hsz] at hs; exact hs
    cases e? with
    | none =>
      rw [andThen_ok _ _ _ _ hsz, ih (i + 1) fs' hrec, hsf]
    | some e =>
      rw [andThen_err _ _ _ _ _ hsz]
      exact hsf

theorem prepare_match_frame (ctx : Ctx) (ad : Path) (md : MatchData) (fs : FS)
    (q : Path) (h1 : q ≠ ctx.modeFile) (h2 : q ≠ ctx.matchFile)
    (hz : ∀ k, k < md.teams.length → ¬ ctx.zonePath k <+: q) :
    FS.lookup ((prepare_match ctx ad md fs).1) q = fs.lookup q := by
  unfold prepare_match
  rcases hw1 : writeText ctx.modeFile "comp\n" fs with ⟨fsa, e1?⟩
  have ha : FS.lookup fsa q = fs.lookup q := by
    have hw := writeText_fst_lookup ctx.modeFile "comp\n" fs q h1
    rw [hw1] at hw; exact hw
  cases e1? with
  | some e => rw [andThen_err _ _ _ _ _ hw1]; exact ha
  | none =>
    rw [andThen_ok _ _ _ _ hw1]
    rcases hw2 : writeText ctx.matchFile (ctx.serializeMatch md) fsa with ⟨fsb, e2?⟩
    have hb : FS.lookup fsb q = FS.lookup fsa q := by
      have hw := writeText_fst_lookup ctx.matchFile (ctx.serializeMatch md) fsa q h2
      rw [hw2] at hw; exact hw
    cases e2? with
    | some e => rw [andThen_err _ _ _ _ _ hw2]; exact hb.trans ha
    | none =>
      rw [andThen_ok _ _ _ _ hw2,
        stageZones_frame ctx ad md.teams 0 fsb q
          (fun k _ hk2 => hz k (by omega)), hb, ha]

/-! ### Claim theorems -/

/-- C2: on every execution path of `main`'s workspace scope — any engine
behavior (missing executable, zero or non-zero exit with any filesystem
effect) and any staging or collation outcome — after the
`temporary_arena_root` scope exits, the temporary workspace directory no
longer exists and the process-wide `controller_utils.ARENA_ROOT` reference
equals its value from before the scope was entered. -/
theorem C2_workspace_teardown (ctx : Ctx) (engine : Engine)
    (archivesDir tmpdir : Path) (md : MatchData) (w : World) :
    (main ctx engine archivesDir tmpdir md w).1.arenaRoot = w.arenaRoot ∧
      FS.lookup (main ctx engine archivesDir tmpdir md w).1.fs tmpdir = none := by
  constructor
  · rfl
  · show FS.lookup (rmtree _ tmpdir) tmpdir = none
    rw [lookup_rmtree, if_pos (List.prefix_refl tmpdir)]

/-- C3: when the engine exits with a non-zero code and the supervisor log
exists with contents `L`, `run_match` prints `L` and then, strictly after the
log body, a bolded summary naming the exit code, and the process terminates
with non-zero status; the final filesystem is exactly the torn-down
post-engine state, so none of `collate_logs`, `archive_match_file` or
`archive_match_recordings` ran.  When the log file does not exist, a bolded
diagnostic naming the code and the absence of supervisor logs is printed
instead, again with non-zero termination and no collation. -/
theorem C3_nonzero_exit_prints_log_then_summary (ctx : Ctx)
    (effect : FS → FS) (code : Nat) (archivesDir tmpdir : Path) (md : MatchData)
    (w : World) (fs1 : FS) (L : String)
    (hprep : prepare_match ctx archivesDir md (fsSet w.fs tmpdir Node.dir)
      = (fs1, none))
    (hcode : code ≠ 0) :
    (FS.lookup (effect fs1) ctx.supervisorLog = some (Node.file L) →
      main ctx (Engine.run effect code) archivesDir tmpdir md w =
        (⟨rmtree (effect fs1) tmpdir,
          envSet (envSet w.env "ARENA_ROOT" (pathStr tmpdir)) "ARENA_ROOT"
            (pathStr w.arenaRoot),
          w.arenaRoot,
          (w.output ++ [usingArenaMsg tmpdir]) ++
            [styleError false L, styleError true (logsAboveMsg code)]⟩,
          Outcome.exited 1)) ∧
    (FS.lookup (effect fs1) ctx.supervisorLog = none →
      main ctx (Engine.run effect code) archivesDir tmpdir md w =
        (⟨rmtree (effect fs1) tmpdir,
          envSet (envSet w.env "ARENA_ROOT" (pathStr tmpdir)) "ARENA_ROOT"
            (pathStr w.arenaRoot),
          w.arenaRoot,
          (w.output ++ [usingArenaMsg tmpdir]) ++
            [styleError true (noLogsMsg code)]⟩,
          Outcome.exited 1)) := by
  constructor <;> intro hlog <;>
    simp only [main, temporary_arena_root, mainBody, liftFS, run_match] <;>
    rw [hprep] <;> simp only [hcode, if_false] <;> rw [hlog]

/-- C4: if the engine executable cannot be found when `run_match` launches it,
the orchestration terminates with non-zero status after emitting the bolded
diagnostic naming `webots`, and every path below `archives_dir` is unchanged
from before the orchestration: no per-team log directory, `matches/` entry or
`recordings/` entry is created or modified on this path. -/
theorem C4_missing_engine_terminates_without_archive_writes (ctx : Ctx)
    (archivesDir tmpdir : Path) (md : MatchData) (w : World) (fs1 : FS)
    (hprep : prepare_match ctx archivesDir md (fsSet w.fs tmpdir Node.dir)
      = (fs1, none))
    (hmode : ¬ archivesDir <+: ctx.modeFile)
    (hmatch : ¬ archivesDir <+: ctx.matchFile)
    (hzones : ∀ k, k < md.teams.length →
      ¬ archivesDir <+: ctx.zonePath k ∧ ¬ ctx.zonePath k <+: archivesDir)
    (htmp1 : ¬ archivesDir <+: tmpdir) (htmp2 : ¬ tmpdir <+: archivesDir) :
    (main ctx Engine.notFound archivesDir tmpdir md w).2 = Outcome.exited 1 ∧
    (main ctx Engine.notFound archivesDir tmpdir md w).1.output =
      (w.output ++ [usingArenaMsg tmpdir]) ++ [styleError true webotsMissingMsg] ∧
    ∀ q, archivesDir <+: q →
      FS.lookup (main ctx Engine.notFound archivesDir tmpdir md w).1.fs q =
        w.fs.lookup q := by
  have hmain : main ctx Engine.notFound archivesDir tmpdir md w =
      (⟨rmtree fs1 tmpdir,
        envSet (envSet w.env "ARENA_ROOT" (pathStr tmpdir)) "ARENA_ROOT"
          (pathStr w.arenaRoot),
        w.arenaRoot,
        (w.output ++ [usingArenaMsg tmpdir]) ++ [styleError true webotsMissingMsg]⟩,
        Outcome.exited 1) := by
    simp only [main, temporary_arena_root, mainBody, liftFS, run_match]
    rw [hprep]
  rw [hmain]
  refine ⟨rfl, rfl, ?_⟩
  intro q hq
  have hnot_tmp : ¬ tmpdir <+: q := fun hc =>
    (List.prefix_or_prefix_of_prefix hq hc).elim htmp1 htmp2
  show FS.lookup (rmtree fs1 tmpdir) q = w.fs.lookup q
  rw [lookup_rmtree, if_neg hnot_tmp]
  have hq1 : q ≠ ctx.modeFile := fun he => hmode (he ▸ hq)
  have hq2 : q ≠ ctx.matchFile := fun he => hmatch (he ▸ hq)
  have hq3 : ∀ k, k < md.teams.length → ¬ ctx.zonePath k <+: q := by
    intro k hk hc
    exact (List.prefix_or_prefix_of_prefix hq hc).elim
      (hzones k hk).1 (hzones k hk).2
  have hfr := prepare_match_frame ctx archivesDir md
    (fsSet w.fs tmpdir Node.dir) q hq1 hq2 hq3
  rw [hprep] at hfr
  refine hfr.trans ?_
  rw [lookup_fsSet, if_neg (fun he : tmpdir = q => hnot_tmp (by rw [he]))]

/-- C10: on every exit of the `temporary_arena_root` scope, the `ARENA_ROOT`
environment variable equals the string form of the `controller_utils.ARENA_ROOT`
value saved at entry — for every initial environment (variable unset, or set
to any other value) and every body, it is synchronized to the saved reference
rather than restored to its literal prior environment state. -/
theorem C10_env_synchronized_to_saved_root (tmpdir : Path)
    (body : World → World × Outcome) (w : World) :
    envGet (temporary_arena_root tmpdir body w).1.env "ARENA_ROOT"
      = some (pathStr w.arenaRoot) := by
  simp only [temporary_arena_root]
  exact envGet_envSet _ _ _

/-! ### Success characterization of staging -/

theorem andThen_ok_inv (a b : FSOp) (fs fs' : FS)
    (h : andThen a b fs = (fs', none)) :
    ∃ fsa, a fs = (fsa, none) ∧ b fsa = (fs', none) := by
  unfold andThen at h
  rcases ha : a fs with ⟨fsa, e?⟩
  rw [ha] at h
  cases e? with
  | none => exact ⟨fsa, rfl, h⟩
  | some e => injection h with _ hs; exact Option.noConfusion hs

theorem not_prefix_of_isPrefixOf_eq_false {l1 l2 : Path}
    (h : l1.isPrefixOf l2 = false) : ¬ l1 <+: l2 := fun hp => by
  rw [List.isPrefixOf_iff_prefix.2 hp] at h
  exact Bool.noConfusion h

theorem clearZone_not_exists (zp : Path) (fs : FS) :
    (clearZone zp fs).pathExists zp = false := by
  unfold clearZone
  by_cases hex : fs.pathExists zp = true
  · rw [if_pos hex]
    unfold FS.pathExists
    rw [lookup_rmtree, if_pos (List.prefix_refl zp)]
    rfl
  · rw [if_neg hex]
    exact Bool.eq_false_iff.2 hex

theorem clearZone_under (zp : Path) (fs : FS) (q : Path) (hq : zp <+: q)
    (hcl : fs.pathExists zp = false → fs.lookup q = none) :
    (clearZone zp fs).lookup q = none := by
  unfold clearZone
  by_cases hex : fs.pathExists zp = true
  · rw [if_pos hex, lookup_rmtree, if_pos hq]
  · rw [if_neg hex]
    exact hcl (Bool.eq_false_iff.2 hex)

theorem optOr_none_right (a : Option Node) : optOr a none = a := by
  cases a <;> rfl

theorem lookup_nil_key (es : List (Path × Node)) (h : ∀ en ∈ es, ¬ en.1 = []) :
    FS.lookup es [] = none := by
  unfold FS.lookup
  rw [List.find?_eq_none.2]
  · rfl
  · intro x hx hbeq
    exact h x hx (eq_of_beq hbeq)

theorem lookup_eq_none_of_all_not (fs : FS) (pred : Path → Bool) (q : Path)
    (hall : fs.all (fun e => !(pred e.1)) = true) (hq : pred q = true) :
    fs.lookup q = none := by
  unfold FS.lookup
  rw [List.find?_eq_none.2]
  · rfl
  · intro x hx hbeq
    have hO := List.all_eq_true.1 hall x hx
    rw [eq_of_beq hbeq, hq] at hO
    exact Bool.noConfusion hO

/-- Successful staging of an assigned zone: the team's zip existed, decoded,
and the zone directory was rebuilt from scratch and filled by extraction. -/
theorem stageZone_some_ok (ctx : Ctx) (ad : Path) (i : Nat) (t : String)
    (fs fs' : FS) (hz : ¬ ctx.zonePath i <+: zipPath ad t)
    (h : stageZone ctx ad i (some t) fs = (fs', none)) :
    ∃ c es, fs.lookup (zipPath ad t) = some (Node.file c) ∧
      ctx.decodeZip c = some es ∧
      fs' = extractall es (ctx.zonePath i)
        (fsSet (clearZone (ctx.zonePath i) fs) (ctx.zonePath i) Node.dir) := by
  have h' : andThen (mkdir (ctx.zonePath i) false)
      (extractTeam ctx ad (ctx.zonePath i) t)
      (clearZone (ctx.zonePath i) fs) = (fs', none) := h
  obtain ⟨fsm, hmk, hex⟩ := andThen_ok_inv _ _ _ _ h'
  rcases mkdir_ok _ _ _ _ hmk with ⟨-, -, rfl⟩ | ⟨-, hdir, -⟩
  · have hne : ctx.zonePath i ≠ zipPath ad t := fun he => hz (by rw [he])
    have hlz : FS.lookup
        (fsSet (clearZone (ctx.zonePath i) fs) (ctx.zonePath i) Node.dir)
        (zipPath ad t) = fs.lookup (zipPath ad t) := by
      rw [lookup_fsSet, if_neg hne]
      exact clearZone_frame _ _ _ hz
    rcases hsome : fs.lookup (zipPath ad t) with _ | n
    · exfalso
      have h1 : extractTeam ctx ad (ctx.zonePath i) t
          (fsSet (clearZone (ctx.zonePath i) fs) (ctx.zonePath i) Node.dir)
          = (fsSet (clearZone (ctx.zonePath i) fs) (ctx.zonePath i) Node.dir,
             some Err.fileNotFound) := by
        unfold extractTeam
        rw [hlz.trans hsome]
      rw [h1] at hex
      injection hex with _ hs; exact Option.noConfusion hs
    · cases n with
      | dir =>
        exfalso
        have h1 : extractTeam ctx ad (ctx.zonePath i) t
            (fsSet (clearZone (ctx.zonePath i) fs) (ctx.zonePath i) Node.dir)
            = (fsSet (clearZone (ctx.zonePath i) fs) (ctx.zonePath i) Node.dir,
               some Err.isADirectory) := by
          unfold extractTeam
          rw [hlz.trans hsome]
        rw [h1] at hex
        injection hex with _ hs; exact Option.noConfusion hs
      | file c =>
        rcases hdec : ctx.decodeZip c with _ | es
        · exfalso
          have h1 : extractTeam ctx ad (ctx.zonePath i) t
              (fsSet (clearZone (ctx.zonePath i) fs) (ctx.zonePath i) Node.dir)
              = (fsSet (clearZone (ctx.zonePath i) fs) (ctx.zonePath i) Node.dir,
                 some Err.badZipFile) := by
            unfold extractTeam
            rw [hlz.trans hsome]
            show (match ctx.decodeZip c with
              | none => (fsSet (clearZone (ctx.zonePath i) fs)
                  (ctx.zonePath i) Node.dir, some Err.badZipFile)
              | some es => (extractall es (ctx.zonePath i)
                  (fsSet (clearZone (ctx.zonePath i) fs)
                    (ctx.zonePath i) Node.dir), none)) = _
            rw [hdec]
          rw [h1] at hex
          injection hex with _ hs; exact Option.noConfusion hs
        · refine ⟨c, es, rfl, hdec, ?_⟩
          have h1 : extractTeam ctx ad (ctx.zonePath i) t
              (fsSet (clearZone (ctx.zonePath i) fs) (ctx.zonePath i) Node.dir)
              = (extractall es (ctx.zonePath i)
                  (fsSet (clearZone (ctx.zonePath i) fs)
                    (ctx.zonePath i) Node.dir), none) := by
            unfold extractTeam
            rw [hlz.trans hsome]
            show (match ctx.decodeZip c with
              | none => (fsSet (clearZone (ctx.zonePath i) fs)
                  (ctx.zonePath i) Node.dir, some Err.badZipFile)
              | some es => (extractall es (ctx.zonePath i)
                  (fsSet (clearZone (ctx.zonePath i) fs)
                    (ctx.zonePath i) Node.dir), none)) = _
            rw [hdec]
          rw [h1] at hex
          injection hex with hf _
          exact hf.symm
  · exfalso
    have hpe := clearZone_not_exists (ctx.zonePath i) fs
    unfold FS.pathExists at hpe
    unfold FS.isDir at hdir
    rw [eq_of_beq hdir] at hpe
    exact Bool.noConfusion hpe

/-- Pointwise characterization of a fully successful staging loop: each
assigned zone holds exactly its archive's extracted contents below a fresh
zone directory, and each unassigned zone is absent. -/
theorem stageZones_ok_spec (ctx : Ctx) (ad : Path) (ts : List (Option String))
    (i0 : Nat) (fs fs' : FS)
    (h : stageZones ctx ad ts i0 fs = (fs', none))
    (hdisj : ∀ a b, i0 ≤ a → a < i0 + ts.length → i0 ≤ b → b < i0 + ts.length →
      a ≠ b → ¬ ctx.zonePath a <+: ctx.zonePath b)
    (hzipsep : ∀ a, i0 ≤ a → a < i0 + ts.length → ∀ t, some t ∈ ts →
      ¬ ctx.zonePath a <+: zipPath ad t)
    (hclosed : ∀ a, i0 ≤ a → a < i0 + ts.length →
      fs.pathExists (ctx.zonePath a) = false →
      ∀ q, ctx.zonePath a <+: q → fs.lookup q = none)
    (hzips : ∀ t, some t ∈ ts → ∀ c,
      fs.lookup (zipPath ad t) = some (Node.file c) → ∀ es,
      ctx.decodeZip c = some es →
        nodupKeys es = true ∧ ∀ en ∈ es, ¬ en.1 = []) :
    ∀ k, k < ts.length →
      (ts.get? k = some none →
        ∀ q, ctx.zonePath (i0 + k) <+: q → fs'.lookup q = none) ∧
      (∀ t, ts.get? k = some (some t) →
        fs'.lookup (ctx.zonePath (i0 + k)) = some Node.dir ∧
        ∃ c es, fs.lookup (zipPath ad t) = some (Node.file c) ∧
          ctx.decodeZip c = some es ∧
          ∀ q, ctx.zonePath (i0 + k) <+: q → q ≠ ctx.zonePath (i0 + k) →
            fs'.lookup q = FS.lookup es (q.drop (ctx.zonePath (i0 + k)).length)) := by
  induction ts generalizing i0 fs with
  | nil => intro k hk; exact absurd hk (by simp)
  | cons t0 rest ih =>
    have h' : andThen (stageZone ctx ad i0 t0) (stageZones ctx ad rest (i0 + 1)) fs
        = (fs', none) := h
    obtain ⟨fsm, hsz, hrest⟩ := andThen_ok_inv _ _ _ _ h'
    have hcomp : ∀ a b q, i0 ≤ a → a < i0 + (t0 :: rest).length →
        i0 ≤ b → b < i0 + (t0 :: rest).length → a ≠ b →
        ctx.zonePath a <+: q → ¬ ctx.zonePath b <+: q := by
      intro a b q ha1 ha2 hb1 hb2 hab haq hbq
      rcases List.prefix_or_prefix_of_prefix haq hbq with hc | hc
      · exact hdisj a b ha1 ha2 hb1 hb2 hab hc
      · exact hdisj b a hb1 hb2 ha1 ha2 (fun he => hab he.symm) hc
    have hfr' : ∀ q, ctx.zonePath i0 <+: q → fs'.lookup q = fsm.lookup q := by
      intro q hq
      have hnone : ∀ b, i0 + 1 ≤ b → b < (i0 + 1) + rest.length →
          ¬ ctx.zonePath b <+: q := by
        intro b hb1 hb2
        exact hcomp i0 b q (Nat.le_refl i0)
          (by simp only [List.length_cons]; omega) (by omega)
          (by simp only [List.length_cons]; omega) (by omega) hq
      have hsf := stageZones_frame ctx ad rest (i0 + 1) fsm q hnone
      rw [hrest] at hsf; exact hsf
    have hfr0 : ∀ q, ¬ ctx.zonePath i0 <+: q → fsm.lookup q = fs.lookup q := by
      intro q hq
      have hs := stageZone_frame ctx ad i0 t0 fs q hq
      rw [hsz] at hs; exact hs
    intro k hk
    cases k with
    | zero =>
      rw [Nat.add_zero]
      constructor
      · intro ht0 q hq
        have ht0' : t0 = none := by
          have hg := ht0
          rw [List.get?_cons_zero] at hg
          injection hg
        subst ht0'
        have hfsm : fsm = clearZone (ctx.zonePath i0) fs := by
          have hz0 : stageZone ctx ad i0 none fs
              = (clearZone (ctx.zonePath i0) fs, none) := rfl
          rw [hz0] at hsz
          injection hsz with hf _
          exact hf.symm
        rw [hfr' q hq, hfsm]
        exact clearZone_under _ _ _ hq (fun hne =>
          hclosed i0 (Nat.le_refl i0) (by simp only [List.length_cons]; omega)
            hne q hq)
      · intro t ht0
        have ht0' : t0 = some t := by
          have hg := ht0
          rw [List.get?_cons_zero] at hg
          injection hg
        subst ht0'
        have hzsep0 : ¬ ctx.zonePath i0 <+: zipPath ad t :=
          hzipsep i0 (Nat.le_refl i0) (by simp only [List.length_cons]; omega)
            t (List.mem_cons_self _ _)
        obtain ⟨c, es, hc, hdec, hfsm⟩ :=
          stageZone_some_ok ctx ad i0 t fs fsm hzsep0 hsz
        obtain ⟨hnd, hkeys⟩ := hzips t (List.mem_cons_self _ _) c hc es hdec
        constructor
        · rw [hfr' _ (List.prefix_refl _), hfsm,
            lookup_extractall _ _ _ _ hnd, if_pos (List.prefix_refl _),
            List.drop_length, lookup_nil_key es hkeys, optOr_none,
            lookup_fsSet, if_pos rfl]
        · refine ⟨c, es, hc, hdec, ?_⟩
          intro q hq hqe
          rw [hfr' q hq, hfsm, lookup_extractall _ _ _ _ hnd, if_pos hq,
            lookup_fsSet, if_neg (fun he => hqe he.symm),
            clearZone_under _ _ _ hq (fun hne =>
              hclosed i0 (Nat.le_refl i0)
                (by simp only [List.length_cons]; omega) hne q hq),
            optOr_none_right]
    | succ k' =>
      have hk' : k' < rest.length := by
        simp only [List.length_cons] at hk; omega
      have hdisj' : ∀ a b, i0 + 1 ≤ a → a < (i0 + 1) + rest.length →
          i0 + 1 ≤ b → b < (i0 + 1) + rest.length → a ≠ b →
          ¬ ctx.zonePath a <+: ctx.zonePath b := by
        intro a b ha1 ha2 hb1 hb2 hab
        exact hdisj a b (by omega) (by simp only [List.length_cons]; omega)
          (by omega) (by simp only [List.length_cons]; omega) hab
      have hzipsep' : ∀ a, i0 + 1 ≤ a → a < (i0 + 1) + rest.length →
          ∀ t, some t ∈ rest → ¬ ctx.zonePath a <+: zipPath ad t := by
        intro a ha1 ha2 t ht
        exact hzipsep a (by omega) (by simp only [List.length_cons]; omega)
          t (List.mem_cons_of_mem _ ht)
      have htrans : ∀ a, i0 + 1 ≤ a → a < (i0 + 1) + rest.length →
          ∀ q, ctx.zonePath a <+: q → fsm.lookup q = fs.lookup q := by
        intro a ha1 ha2 q hq
        exact hfr0 q (hcomp a i0 q (by omega)
          (by simp only [List.length_cons]; omega) (Nat.le_refl i0)
          (by simp only [List.length_cons]; omega) (by omega) hq)
      have hclosed' : ∀ a, i0 + 1 ≤ a → a < (i0 + 1) + rest.length →
          fsm.pathExists (ctx.zonePath a) = false →
          ∀ q, ctx.zonePath a <+: q → fsm.lookup q = none := by
        intro a ha1 ha2 hne q hq
        have hpe : fs.pathExists (ctx.zonePath a) = false := by
          unfold FS.pathExists at hne ⊢
          rw [← htrans a ha1 ha2 _ (List.prefix_refl _)]
          exact hne
        rw [htrans a ha1 ha2 q hq]
        exact hclosed a (by omega) (by simp only [List.length_cons]; omega) hpe q hq
      have hzipfr : ∀ t, some t ∈ rest →
          fsm.lookup (zipPath ad t) = fs.lookup (zipPath ad t) := by
        intro t ht
        exact hfr0 _ (hzipsep i0 (Nat.le_refl i0)
          (by simp only [List.length_cons]; omega) t (List.mem_cons_of_mem _ ht))
      have hzips' : ∀ t, some t ∈ rest → ∀ c,
          fsm.lookup (zipPath ad t) = some (Node.file c) → ∀ es,
          ctx.decodeZip c = some es →
          nodupKeys es = true ∧ ∀ en ∈ es, ¬ en.1 = [] := by
        intro t ht c hc es hdec
        exact hzips t (List.mem_cons_of_mem _ ht) c
          ((hzipfr t ht).symm.trans hc) es hdec
      have ihk := ih (i0 + 1) fsm hrest hdisj' hzipsep' hclosed' hzips' k' hk'
      have hidx : (i0 + 1) + k' = i0 + (k' + 1) := by omega
      rw [hidx] at ihk
      refine ⟨ihk.1, ?_⟩
      intro t ht
      obtain ⟨hdir, c, es, hc, hdec, hpt⟩ := ihk.2 t ht
      exact ⟨hdir, c, es, (hzipfr t (List.get?_mem ht)).symm.trans hc, hdec, hpt⟩

/-! ### Unpacking the decidable layout side conditions -/

theorem stagingSeparated_disj (ctx : Ctx) (ad : Path) (ts : List (Option String))
    (h : stagingSeparated ctx ad ts = true) :
    ∀ a b, a < ts.length → b < ts.length → a ≠ b →
      ¬ ctx.zonePath a <+: ctx.zonePath b := by
  intro a b ha hb hab
  unfold stagingSeparated at h
  rw [Bool.and_eq_true] at h
  have h1 := List.all_eq_true.1 h.1 a (List.mem_range.2 ha)
  rw [Bool.and_eq_true, Bool.and_eq_true] at h1
  have h2 := List.all_eq_true.1 h1.1.1 b (List.mem_range.2 hb)
  rw [Bool.or_eq_true] at h2
  rcases h2 with h2 | h2
  · exact absurd (eq_of_beq h2) hab
  · rw [Bool.not_eq_true'] at h2
    exact not_prefix_of_isPrefixOf_eq_false h2

theorem stagingSeparated_marks (ctx : Ctx) (ad : Path)
    (ts : List (Option String)) (h : stagingSeparated ctx ad ts = true) :
    ∀ a, a < ts.length →
      ¬ ctx.zonePath a <+: ctx.modeFile ∧ ¬ ctx.zonePath a <+: ctx.matchFile := by
  intro a ha
  unfold stagingSeparated at h
  rw [Bool.and_eq_true] at h
  have h1 := List.all_eq_true.1 h.1 a (List.mem_range.2 ha)
  rw [Bool.and_eq_true, Bool.and_eq_true] at h1
  constructor
  · have h2 := h1.1.2
    rw [Bool.not_eq_true'] at h2
    exact not_prefix_of_isPrefixOf_eq_false h2
  · have h2 := h1.2
    rw [Bool.not_eq_true'] at h2
    exact not_prefix_of_isPrefixOf_eq_false h2

theorem stagingSeparated_zips (ctx : Ctx) (ad : Path)
    (ts : List (Option String)) (h : stagingSeparated ctx ad ts = true) :
    ∀ t, some t ∈ ts →
      (∀ a, a < ts.length → ¬ ctx.zonePath a <+: zipPath ad t) ∧
      ctx.modeFile ≠ zipPath ad t ∧ ctx.matchFile ≠ zipPath ad t := by
  intro t ht
  unfold stagingSeparated at h
  rw [Bool.and_eq_true] at h
  have h1 := List.all_eq_true.1 h.2 (some t) ht
  have h2 : (((List.range ts.length).all
      (fun a => !((ctx.zonePath a).isPrefixOf (zipPath ad t)))) &&
      !(ctx.modeFile == zipPath ad t) &&
      !(ctx.matchFile == zipPath ad t)) = true := h1
  rw [Bool.and_eq_true, Bool.and_eq_true] at h2
  refine ⟨?_, ?_, ?_⟩
  · intro a ha
    have h3 := List.all_eq_true.1 h2.1.1 a (List.mem_range.2 ha)
    rw [Bool.not_eq_true'] at h3
    exact not_prefix_of_isPrefixOf_eq_false h3
  · have h3 := h2.1.2
    rw [Bool.not_eq_true'] at h3
    exact ne_of_beq_false h3
  · have h3 := h2.2
    rw [Bool.not_eq_true'] at h3
    exact ne_of_beq_false h3

theorem zonesClosed_spec (ctx : Ctx) (ts : List (Option String)) (fs : FS)
    (h : zonesClosed ctx ts fs = true) :
    ∀ a, a < ts.length → fs.pathExists (ctx.zonePath a) = false →
      ∀ q, ctx.zonePath a <+: q → fs.lookup q = none := by
  intro a ha hne q hq
  unfold zonesClosed at h
  have h1 := List.all_eq_true.1 h a (List.mem_range.2 ha)
  rw [Bool.or_eq_true] at h1
  rcases h1 with h1 | h1
  · rw [hne] at h1; exact Bool.noConfusion h1
  · exact lookup_eq_none_of_all_not fs (fun p => (ctx.zonePath a).isPrefixOf p)
      q h1 (List.isPrefixOf_iff_prefix.2 hq)

theorem zipsWellFormed_spec (ctx : Ctx) (ad : Path) (ts : List (Option String))
    (fs : FS) (h : zipsWellFormed ctx ad ts fs = true) :
    ∀ t, some t ∈ ts → ∀ c, fs.lookup (zipPath ad t) = some (Node.file c) →
      ∀ es, ctx.decodeZip c = some es →
      nodupKeys es = true ∧ ∀ en ∈ es, ¬ en.1 = [] := by
  intro t ht c hc es hdec
  have h1 := List.all_eq_true.1 h (some t) ht
  have h2 : (match fs.lookup (zipPath ad t) with
    | some (Node.file c) =>
        match ctx.decodeZip c with
        | some es => nodupKeys es && es.all (fun en => !(en.1.isEmpty))
        | none => true
    | some Node.dir => true
    | none => true) = true := h1
  rw [hc] at h2
  have h3 : (match ctx.decodeZip c with
    | some es => nodupKeys es && es.all (fun en => !(en.1.isEmpty))
    | none => true) = true := h2
  rw [hdec] at h3
  have h4 : (nodupKeys es && es.all (fun en => !(en.1.isEmpty))) = true := h3
  rw [Bool.and_eq_true] at h4
  refine ⟨h4.1, ?_⟩
  intro en hen he
  have h5 := List.all_eq_true.1 h4.2 en hen
  rw [Bool.not_eq_true'] at h5
  rw [he] at h5
  simp at h5

/-- C1: after `prepare_match` completes successfully (under the layout side
conditions any real arena satisfies), a zone's directory exists iff its
assignment is non-empty, and an existing zone directory contains exactly the
extracted contents of `{archives_dir}/{team_id}.zip` with the archive's
internal structure preserved (every path below the zone directory resolves
exactly as the archive's entry map does); any pre-existing zone contents are
gone, since the subtree is characterized completely. -/
theorem C1_prepare_match_stages_exactly (ctx : Ctx) (ad : Path) (md : MatchData)
    (fs fs' : FS)
    (hsucc : prepare_match ctx ad md fs = (fs', none))
    (hsep : stagingSeparated ctx ad md.teams = true)
    (hcl : zonesClosed ctx md.teams fs = true)
    (hwf : zipsWellFormed ctx ad md.teams fs = true) :
    ∀ k, k < md.teams.length →
      (md.teams.get? k = some none →
        ∀ q, ctx.zonePath k <+: q → fs'.lookup q = none) ∧
      (∀ t, md.teams.get? k = some (some t) →
        fs'.lookup (ctx.zonePath k) = some Node.dir ∧
        ∃ c es, fs.lookup (zipPath ad t) = some (Node.file c) ∧
          ctx.decodeZip c = some es ∧
          ∀ q, ctx.zonePath k <+: q → q ≠ ctx.zonePath k →
            fs'.lookup q = FS.lookup es (q.drop (ctx.zonePath k).length)) := by
  unfold prepare_match at hsucc
  obtain ⟨fsa, hw1, hrest1⟩ := andThen_ok_inv _ _ _ _ hsucc
  obtain ⟨fsb, hw2, hloop⟩ := andThen_ok_inv _ _ _ _ hrest1
  have hfsa : fsa = fsSet fs ctx.modeFile (Node.file "comp\n") :=
    writeText_ok _ _ _ _ hw1
  have hfsb : fsb = fsSet fsa ctx.matchFile (Node.file (ctx.serializeMatch md)) :=
    writeText_ok _ _ _ _ hw2
  have hmark : ∀ q, q ≠ ctx.modeFile → q ≠ ctx.matchFile →
      fsb.lookup q = fs.lookup q := by
    intro q h1 h2
    rw [hfsb, lookup_fsSet, if_neg (fun he => h2 he.symm), hfsa,
      lookup_fsSet, if_neg (fun he => h1 he.symm)]
  have hdisjP := stagingSeparated_disj ctx ad md.teams hsep
  have hmodeP := stagingSeparated_marks ctx ad md.teams hsep
  have hzipP := stagingSeparated_zips ctx ad md.teams hsep
  have hclP := zonesClosed_spec ctx md.teams fs hcl
  have hwfP := zipsWellFormed_spec ctx ad md.teams fs hwf
  have hzp_ne : ∀ a, a < md.teams.length →
      ctx.zonePath a ≠ ctx.modeFile ∧ ctx.zonePath a ≠ ctx.matchFile := by
    intro a ha
    exact ⟨fun he => (hmodeP a ha).1 (by rw [he]),
      fun he => (hmodeP a ha).2 (by rw [he])⟩
  have hq_ne : ∀ a, a < md.teams.length → ∀ q, ctx.zonePath a <+: q →
      q ≠ ctx.modeFile ∧ q ≠ ctx.matchFile := by
    intro a ha q hq
    exact ⟨fun he => (hmodeP a ha).1 (he ▸ hq), fun he => (hmodeP a ha).2 (he ▸ hq)⟩
  have hclosed0 : ∀ a, 0 ≤ a → a < 0 + md.teams.length →
      fsb.pathExists (ctx.zonePath a) = false →
      ∀ q, ctx.zonePath a <+: q → fsb.lookup q = none := by
    intro a _ ha2 hne q hq
    have ha : a < md.teams.length := by omega
    have hpe : fs.pathExists (ctx.zonePath a) = false := by
      unfold FS.pathExists at hne ⊢
      rw [← hmark _ (hzp_ne a ha).1 (hzp_ne a ha).2]
      exact hne
    rw [hmark q (hq_ne a ha q hq).1 (hq_ne a ha q hq).2]
    exact hclP a ha hpe q hq
  have hzips0 : ∀ t, some t ∈ md.teams → ∀ c,
      fsb.lookup (zipPath ad t) = some (Node.file c) → ∀ es,
      ctx.decodeZip c = some es →
      nodupKeys es = true ∧ ∀ en ∈ es, ¬ en.1 = [] := by
    intro t ht c hc es hdec
    have hzm := hzipP t ht
    rw [hmark _ (fun he => hzm.2.1 he.symm) (fun he => hzm.2.2 he.symm)] at hc
    exact hwfP t ht c hc es hdec
  have hmain := stageZones_ok_spec ctx ad md.teams 0 fsb fs' hloop
    (fun a b ha1 ha2 hb1 hb2 hab => hdisjP a b (by omega) (by omega) hab)
    (fun a ha1 ha2 t ht => (hzipP t ht).1 a (by omega))
    hclosed0 hzips0
  intro k hk
  have hmk := hmain k hk
  rw [Nat.zero_add] at hmk
  refine ⟨hmk.1, ?_⟩
  intro t ht
  obtain ⟨hdir, c, es, hc, hdec, hpt⟩ := hmk.2 t ht
  have hzm := hzipP t (List.get?_mem ht)
  rw [hmark _ (fun he => hzm.2.1 he.symm) (fun he => hzm.2.2 he.symm)] at hc
  exact ⟨hdir, c, es, hc, hdec, hpt⟩

theorem stageZones_append (ctx : Ctx) (ad : Path)
    (ts₁ ts₂ : List (Option String)) (i : Nat) (fs fsk : FS)
    (h : stageZones ctx ad ts₁ i fs = (fsk, none)) :
    stageZones ctx ad (ts₁ ++ ts₂) i fs
      = stageZones ctx ad ts₂ (i + ts₁.length) fsk := by
  induction ts₁ generalizing i fs with
  | nil =>
    injection h with hf _
    rw [hf, show i + ([] : List (Option String)).length = i by simp]
    rfl
  | cons t ts₁ ih =>
    show andThen (stageZone ctx ad i t)
      (stageZones ctx ad (ts₁ ++ ts₂) (i + 1)) fs = _
    have h' : andThen (stageZone ctx ad i t) (stageZones ctx ad ts₁ (i + 1)) fs
        = (fsk, none) := h
    obtain ⟨fsm, hsz, hrest⟩ := andThen_ok_inv _ _ _ _ h'
    rw [andThen_ok _ _ _ _ hsz, ih (i + 1) fsm hrest,
      show (i + 1) + ts₁.length = i + (t :: ts₁).length by
        simp only [List.length_cons]; omega]

/-- C8: if a zone's assignment names a team whose archive zip is missing,
staging fails with the archive-not-found error (the `FileNotFoundError`
raised when opening the zip); if the zip exists but cannot be decoded as an
archive, staging fails with the archive-extraction error (`BadZipFile`).  In
both cases the failure is fatal: the uncaught error aborts `main`'s body
before `run_match`, so the outcome and final world are the same for every
engine behavior — the engine is never launched — and no collation happens. -/
theorem C8_staging_failure_is_fatal (ctx : Ctx) (ad tmpdir : Path)
    (md : MatchData) (w : World) (ts₁ ts₂ : List (Option String)) (t : String)
    (fsa fsb fsk fsm : FS) (engine : Engine)
    (hteams : md.teams = ts₁ ++ (some t) :: ts₂)
    (hw1 : writeText ctx.modeFile "comp\n" (fsSet w.fs tmpdir Node.dir)
      = (fsa, none))
    (hw2 : writeText ctx.matchFile (ctx.serializeMatch md) fsa = (fsb, none))
    (hpre : stageZones ctx ad ts₁ 0 fsb = (fsk, none))
    (hmk : mkdir (ctx.zonePath ts₁.length) false
      (clearZone (ctx.zonePath ts₁.length) fsk) = (fsm, none)) :
    (fsm.lookup (zipPath ad t) = none →
      prepare_match ctx ad md (fsSet w.fs tmpdir Node.dir)
        = (fsm, some Err.fileNotFound) ∧
      main ctx engine ad tmpdir md w =
        (⟨rmtree fsm tmpdir,
          envSet (envSet w.env "ARENA_ROOT" (pathStr tmpdir)) "ARENA_ROOT"
            (pathStr w.arenaRoot),
          w.arenaRoot,
          w.output ++ [usingArenaMsg tmpdir]⟩,
          Outcome.raised Err.fileNotFound)) ∧
    (∀ c, fsm.lookup (zipPath ad t) = some (Node.file c) →
      ctx.decodeZip c = none →
      prepare_match ctx ad md (fsSet w.fs tmpdir Node.dir)
        = (fsm, some Err.badZipFile) ∧
      main ctx engine ad tmpdir md w =
        (⟨rmtree fsm tmpdir,
          envSet (envSet w.env "ARENA_ROOT" (pathStr tmpdir)) "ARENA_ROOT"
            (pathStr w.arenaRoot),
          w.arenaRoot,
          w.output ++ [usingArenaMsg tmpdir]⟩,
          Outcome.raised Err.badZipFile)) := by
  have hcommon : ∀ e : Err,
      extractTeam ctx ad (ctx.zonePath ts₁.length) t fsm = (fsm, some e) →
      prepare_match ctx ad md (fsSet w.fs tmpdir Node.dir) = (fsm, some e) := by
    intro e hext
    have hstage : stageZone ctx ad ts₁.length (some t) fsk = (fsm, some e) := by
      show andThen (mkdir (ctx.zonePath ts₁.length) false)
        (extractTeam ctx ad (ctx.zonePath ts₁.length) t)
        (clearZone (ctx.zonePath ts₁.length) fsk) = _
      rw [andThen_ok _ _ _ _ hmk, hext]
    unfold prepare_match
    rw [andThen_ok _ _ _ _ hw1, andThen_ok _ _ _ _ hw2, hteams,
      stageZones_append ctx ad ts₁ ((some t) :: ts₂) 0 fsb fsk hpre,
      Nat.zero_add]
    show andThen (stageZone ctx ad ts₁.length (some t))
      (stageZones ctx ad ts₂ (ts₁.length + 1)) fsk = _
    rw [andThen_err _ _ _ _ _ hstage]
  have hmn : ∀ e : Err,
      prepare_match ctx ad md (fsSet w.fs tmpdir Node.dir) = (fsm, some e) →
      main ctx engine ad tmpdir md w =
        (⟨rmtree fsm tmpdir,
          envSet (envSet w.env "ARENA_ROOT" (pathStr tmpdir)) "ARENA_ROOT"
            (pathStr w.arenaRoot),
          w.arenaRoot,
          w.output ++ [usingArenaMsg tmpdir]⟩,
          Outcome.raised e) := by
    intro e hprep
    simp only [main, temporary_arena_root, mainBody, liftFS]
    rw [hprep]
  constructor
  · intro hzip
    have hext : extractTeam ctx ad (ctx.zonePath ts₁.length) t fsm
        = (fsm, some Err.fileNotFound) := by
      unfold extractTeam
      rw [hzip]
    exact ⟨hcommon _ hext, hmn _ (hcommon _ hext)⟩
  · intro c hzip hdec
    have hext : extractTeam ctx ad (ctx.zonePath ts₁.length) t fsm
        = (fsm, some Err.badZipFile) := by
      unfold extractTeam
      rw [hzip]
      show (match ctx.decodeZip c with
        | none => (fsm, some Err.badZipFile)
        | some entries => (extractall entries (ctx.zonePath ts₁.length) fsm,
            none)) = _
      rw [hdec]
    exact ⟨hcommon _ hext, hmn _ (hcommon _ hext)⟩

/-- C9: staging is not atomic.  If `prepare_match` fails at zone
`ts₁.length` because that team's archive is missing (`FileNotFoundError`)
or unreadable (`BadZipFile`), the returned state still contains the
operating-mode marker (`comp`) and the recorded match data, and every
earlier zone `0 .. ts₁.length - 1` remains fully staged (absent when
unassigned, exactly the extracted archive when assigned): nothing written
before the failing zone is rolled back. -/
theorem C9_staging_not_atomic (ctx : Ctx) (ad : Path) (md : MatchData)
    (fs fsa fsb fsk fsm : FS) (ts₁ ts₂ : List (Option String)) (t : String)
    (hteams : md.teams = ts₁ ++ (some t) :: ts₂)
    (hw1 : writeText ctx.modeFile "comp\n" fs = (fsa, none))
    (hw2 : writeText ctx.matchFile (ctx.serializeMatch md) fsa = (fsb, none))
    (hpre : stageZones ctx ad ts₁ 0 fsb = (fsk, none))
    (hmk : mkdir (ctx.zonePath ts₁.length) false
      (clearZone (ctx.zonePath ts₁.length) fsk) = (fsm, none))
    (hfail : fsm.lookup (zipPath ad t) = none ∨
      ∃ c, fsm.lookup (zipPath ad t) = some (Node.file c) ∧
        ctx.decodeZip c = none)
    (hsep : stagingSeparated ctx ad md.teams = true)
    (hcl : zonesClosed ctx md.teams fs = true)
    (hwf : zipsWellFormed ctx ad md.teams fs = true)
    (hmmne : ctx.modeFile ≠ ctx.matchFile) :
    (∃ e, (e = Err.fileNotFound ∨ e = Err.badZipFile) ∧
      prepare_match ctx ad md fs = (fsm, some e)) ∧
    fsm.lookup ctx.modeFile = some (Node.file "comp\n") ∧
    fsm.lookup ctx.matchFile = some (Node.file (ctx.serializeMatch md)) ∧
    ∀ k, k < ts₁.length →
      (ts₁.get? k = some none →
        ∀ q, ctx.zonePath k <+: q → fsm.lookup q = none) ∧
      (∀ t', ts₁.get? k = some (some t') →
        fsm.lookup (ctx.zonePath k) = some Node.dir ∧
        ∃ c es, fs.lookup (zipPath ad t') = some (Node.file c) ∧
          ctx.decodeZip c = some es ∧
          ∀ q, ctx.zonePath k <+: q → q ≠ ctx.zonePath k →
            fsm.lookup q = FS.lookup es (q.drop (ctx.zonePath k).length)) := by
  have hfsa : fsa = fsSet fs ctx.modeFile (Node.file "comp\n") :=
    writeText_ok _ _ _ _ hw1
  have hfsb : fsb = fsSet fsa ctx.matchFile (Node.file (ctx.serializeMatch md)) :=
    writeText_ok _ _ _ _ hw2
  have hlen1 : ts₁.length < md.teams.length := by
    rw [hteams]; simp only [List.length_append, List.length_cons]; omega
  have hmodeP := stagingSeparated_marks ctx ad md.teams hsep
  have hdisjP := stagingSeparated_disj ctx ad md.teams hsep
  have hzipP := stagingSeparated_zips ctx ad md.teams hsep
  have hclP := zonesClosed_spec ctx md.teams fs hcl
  have hwfP := zipsWellFormed_spec ctx ad md.teams fs hwf
  have hmark : ∀ q, q ≠ ctx.modeFile → q ≠ ctx.matchFile →
      fsb.lookup q = fs.lookup q := by
    intro q h1 h2
    rw [hfsb, lookup_fsSet, if_neg (fun he => h2 he.symm), hfsa,
      lookup_fsSet, if_neg (fun he => h1 he.symm)]
  have hzp_ne : ∀ a, a < md.teams.length →
      ctx.zonePath a ≠ ctx.modeFile ∧ ctx.zonePath a ≠ ctx.matchFile := by
    intro a ha
    exact ⟨fun he => (hmodeP a ha).1 (by rw [he]),
      fun he => (hmodeP a ha).2 (by rw [he])⟩
  have hq_ne : ∀ a, a < md.teams.length → ∀ q, ctx.zonePath a <+: q →
      q ≠ ctx.modeFile ∧ q ≠ ctx.matchFile := by
    intro a ha q hq
    exact ⟨fun he => (hmodeP a ha).1 (he ▸ hq), fun he => (hmodeP a ha).2 (he ▸ hq)⟩
  -- the failing zone's clear and mkdir do not touch anything outside its path
  have hktom : ∀ q, ¬ ctx.zonePath ts₁.length <+: q →
      fsm.lookup q = fsk.lookup q := by
    intro q hq
    have hne : q ≠ ctx.zonePath ts₁.length := fun he => hq (by rw [he])
    have h1 := mkdir_fst_lookup (ctx.zonePath ts₁.length) false
      (clearZone (ctx.zonePath ts₁.length) fsk) q hne
    rw [hmk] at h1
    exact h1.trans (clearZone_frame _ _ _ hq)
  -- the successfully staged prefix does not touch the marker files
  have hloopfr : ∀ q, (∀ j, j < ts₁.length → ¬ ctx.zonePath j <+: q) →
      fsk.lookup q = fsb.lookup q := by
    intro q h3
    have hf := stageZones_frame ctx ad ts₁ 0 fsb q
      (fun j _ hj2 => h3 j (by omega))
    rw [hpre] at hf; exact hf
  refine ⟨?_, ?_, ?_, ?_⟩
  · -- the failing run's final state and error, for either failure trigger
    have hcommon : ∀ e0 : Err,
        extractTeam ctx ad (ctx.zonePath ts₁.length) t fsm = (fsm, some e0) →
        prepare_match ctx ad md fs = (fsm, some e0) := by
      intro e0 hext
      have hstage : stageZone ctx ad ts₁.length (some t) fsk
          = (fsm, some e0) := by
        show andThen (mkdir (ctx.zonePath ts₁.length) false)
          (extractTeam ctx ad (ctx.zonePath ts₁.length) t)
          (clearZone (ctx.zonePath ts₁.length) fsk) = _
        rw [andThen_ok _ _ _ _ hmk, hext]
      unfold prepare_match
      rw [andThen_ok _ _ _ _ hw1, andThen_ok _ _ _ _ hw2, hteams,
        stageZones_append ctx ad ts₁ ((some t) :: ts₂) 0 fsb fsk hpre,
        Nat.zero_add]
      show andThen (stageZone ctx ad ts₁.length (some t))
        (stageZones ctx ad ts₂ (ts₁.length + 1)) fsk = _
      rw [andThen_err _ _ _ _ _ hstage]
    rcases hfail with hzipm | ⟨c, hzip, hdec⟩
    · refine ⟨Err.fileNotFound, Or.inl rfl, hcommon _ ?_⟩
      unfold extractTeam
      rw [hzipm]
    · refine ⟨Err.badZipFile, Or.inr rfl, hcommon _ ?_⟩
      unfold extractTeam
      rw [hzip]
      show (match ctx.decodeZip c with
        | none => (fsm, some Err.badZipFile)
        | some entries => (extractall entries (ctx.zonePath ts₁.length) fsm,
            none)) = _
      rw [hdec]
  · -- the mode marker survives
    rw [hktom _ (hmodeP ts₁.length hlen1).1,
      hloopfr _ (fun j hj => (hmodeP j (by omega)).1),
      hfsb, lookup_fsSet, if_neg (fun he => hmmne he.symm), hfsa,
      lookup_fsSet, if_pos rfl]
  · -- the match record survives
    rw [hktom _ (hmodeP ts₁.length hlen1).2,
      hloopfr _ (fun j hj => (hmodeP j (by omega)).2),
      hfsb, lookup_fsSet, if_pos rfl]
  · -- the staged prefix is intact
    have hclosed0 : ∀ a, 0 ≤ a → a < 0 + ts₁.length →
        fsb.pathExists (ctx.zonePath a) = false →
        ∀ q, ctx.zonePath a <+: q → fsb.lookup q = none := by
      intro a _ ha2 hne q hq
      have ha : a < md.teams.length := by omega
      have hpe : fs.pathExists (ctx.zonePath a) = false := by
        unfold FS.pathExists at hne ⊢
        rw [← hmark _ (hzp_ne a ha).1 (hzp_ne a ha).2]
        exact hne
      rw [hmark q (hq_ne a ha q hq).1 (hq_ne a ha q hq).2]
      exact hclP a ha hpe q hq
    have hmem : ∀ t', some t' ∈ ts₁ → some t' ∈ md.teams := by
      intro t' ht'
      rw [hteams]
      exact List.mem_append_left _ ht'
    have hzips0 : ∀ t', some t' ∈ ts₁ → ∀ c,
        fsb.lookup (zipPath ad t') = some (Node.file c) → ∀ es,
        ctx.decodeZip c = some es →
        nodupKeys es = true ∧ ∀ en ∈ es, ¬ en.1 = [] := by
      intro t' ht' c hc es hdec
      have hzm := hzipP t' (hmem t' ht')
      rw [hmark _ (fun he => hzm.2.1 he.symm) (fun he => hzm.2.2 he.symm)] at hc
      exact hwfP t' (hmem t' ht') c hc es hdec
    have hspec := stageZones_ok_spec ctx ad ts₁ 0 fsb fsk hpre
      (fun a b ha1 ha2 hb1 hb2 hab =>
        hdisjP a b (by omega) (by omega) hab)
      (fun a ha1 ha2 t' ht' => (hzipP t' (hmem t' ht')).1 a (by omega))
      hclosed0 hzips0
    intro k hk
    have hkm := hspec k hk
    rw [Nat.zero_add] at hkm
    have hkzone : ∀ q, ctx.zonePath k <+: q →
        fsm.lookup q = fsk.lookup q := by
      intro q hq
      refine hktom q (fun hq2 => ?_)
      rcases List.prefix_or_prefix_of_prefix hq hq2 with hc | hc
      · exact hdisjP k ts₁.length (by omega) hlen1 (by omega) hc
      · exact hdisjP ts₁.length k hlen1 (by omega) (by omega) hc
    constructor
    · intro hg q hq
      rw [hkzone q hq]
      exact hkm.1 hg q hq
    · intro t' hg
      obtain ⟨hdir, c, es, hc, hdec, hpt⟩ := hkm.2 t' hg
      have hzm := hzipP t' (hmem t' (List.get?_mem hg))
      rw [hmark _ (fun he => hzm.2.1 he.symm) (fun he => hzm.2.2 he.symm)] at hc
      refine ⟨?_, c, es, hc, hdec, ?_⟩
      · rw [hkzone _ (List.prefix_refl _)]
        exact hdir
      · intro q hq hqe
        rw [hkzone q hq]
        exact hpt q hq hqe

/-! ### `archive_match_file` characterization -/

theorem copyFile_ok (src dst : Path) (fs fs' : FS) (c : String)
    (hsrc : fs.lookup src = some (Node.file c))
    (h : copyFile src dst fs = (fs', none)) :
    fs' = fsSet fs dst (Node.file c) := by
  unfold copyFile at h
  rw [hsrc] at h
  exact writeText_ok _ _ _ _ h

theorem matches_target_ne (ad : Path) (s : String) :
    ad ++ ["matches", s] ≠ ad ++ ["matches"] := by
  intro he
  have hl := congrArg List.length he
  simp at hl

theorem dropLast_append_singleton (l : Path) (a : String) :
    (l ++ [a]).dropLast = l := by simp

/-- What a successful `archive_match_file` run guarantees: the padded target
file holds the score file's contents, `matches/` is a directory, the source
score file is untouched, and no other path changed. -/
theorem archive_match_file_spec (ctx : Ctx) (ad : Path) (md : MatchData)
    (fs fs' : FS) (c : String)
    (hsrc : fs.lookup ctx.matchFile = some (Node.file c))
    (hok : archive_match_file ctx ad md fs = (fs', none)) :
    fs'.lookup (ad ++ ["matches", matchFileName md.match_number])
        = some (Node.file c) ∧
    fs'.lookup (ad ++ ["matches"]) = some Node.dir ∧
    fs'.lookup ctx.matchFile = some (Node.file c) ∧
    ∀ q, q ≠ ad ++ ["matches", matchFileName md.match_number] →
      q ≠ ad ++ ["matches"] → fs'.lookup q = fs.lookup q := by
  unfold archive_match_file at hok
  rcases hmk : mkdir (ad ++ ["matches"]) true fs with ⟨fsm, em⟩
  cases em with
  | some e =>
    rw [andThen_err _ _ _ _ _ hmk] at hok
    injection hok with _ hs; exact Option.noConfusion hs
  | none =>
    rw [andThen_ok _ _ _ _ hmk] at hok
    have hA : fsm.lookup (ad ++ ["matches"]) = some Node.dir := by
      rcases mkdir_ok _ _ _ _ hmk with ⟨_, _, rfl⟩ | ⟨_, hdir, rfl⟩
      · rw [lookup_fsSet, if_pos rfl]
      · unfold FS.isDir at hdir; exact eq_of_beq hdir
    have hB : ∀ q, q ≠ ad ++ ["matches"] → fsm.lookup q = fs.lookup q := by
      intro q hq
      rcases mkdir_ok _ _ _ _ hmk with ⟨_, _, rfl⟩ | ⟨_, _, rfl⟩
      · rw [lookup_fsSet, if_neg (fun hh => hq hh.symm)]
      · rfl
    by_cases he : ctx.matchFile = ad ++ ["matches"]
    · exfalso
      unfold copyFile at hok
      rw [he, hA] at hok
      injection hok with _ hs; exact Option.noConfusion hs
    · have hsm : fsm.lookup ctx.matchFile = some (Node.file c) :=
        (hB _ he).trans hsrc
      have hfs' : fs' = fsSet fsm
          (ad ++ ["matches", matchFileName md.match_number]) (Node.file c) :=
        copyFile_ok _ _ _ _ _ hsm hok
      refine ⟨?_, ?_, ?_, ?_⟩
      · rw [hfs', lookup_fsSet, if_pos rfl]
      · rw [hfs', lookup_fsSet, if_neg (matches_target_ne ad _)]
        exact hA
      · by_cases ht : ctx.matchFile = ad ++ ["matches", matchFileName md.match_number]
        · rw [hfs', lookup_fsSet, if_pos ht.symm]
        · rw [hfs', lookup_fsSet, if_neg (fun hh => ht hh.symm)]
          exact hsm
      · intro q hq1 hq2
        rw [hfs', lookup_fsSet, if_neg (fun hh => hq1 hh.symm)]
        exact hB q hq2

/-- C6: for every match number, a successful `archive_match_file` copies the
engine's score file contents to `{archives_dir}/matches/{match_number
zero-padded to 3 digits}.yaml` — match 7 yields `matches/007.yaml` — with the
`matches/` directory present (created first when absent). -/
theorem C6_archive_match_file_padded_copy (ctx : Ctx) (ad : Path)
    (md : MatchData) (fs fs' : FS) (c : String)
    (hsrc : fs.lookup ctx.matchFile = some (Node.file c))
    (hok : archive_match_file ctx ad md fs = (fs', none)) :
    fs'.lookup (ad ++ ["matches", matchFileName md.match_number])
        = some (Node.file c) ∧
    fs'.lookup (ad ++ ["matches"]) = some Node.dir ∧
    matchFileName 7 = "007.yaml" := by
  obtain ⟨h1, h2, -, -⟩ := archive_match_file_spec ctx ad md fs fs' c hsrc hok
  exact ⟨h1, h2, rfl⟩

/-- C7: re-running `archive_match_file` for the same match number on the same
source score file succeeds, rewrites the padded target with identical
content, and changes nothing at all in the filesystem — in particular no
duplicate or secondary artifact appears. -/
theorem C7_archive_match_file_idempotent (ctx : Ctx) (ad : Path)
    (md : MatchData) (fs fs' : FS) (c : String)
    (hsrc : fs.lookup ctx.matchFile = some (Node.file c))
    (hok : archive_match_file ctx ad md fs = (fs', none)) :
    (archive_match_file ctx ad md fs').2 = none ∧
    FS.lookup ((archive_match_file ctx ad md fs').1)
        (ad ++ ["matches", matchFileName md.match_number]) = some (Node.file c) ∧
    ∀ q, FS.lookup ((archive_match_file ctx ad md fs').1) q = fs'.lookup q := by
  obtain ⟨h1, h2, h3, -⟩ := archive_match_file_spec ctx ad md fs fs' c hsrc hok
  have hex : fs'.pathExists (ad ++ ["matches"]) = true := by
    unfold FS.pathExists; rw [h2]; rfl
  have hdir : fs'.isDir (ad ++ ["matches"]) = true := by
    unfold FS.isDir; rw [h2]; rfl
  have hmk2 : mkdir (ad ++ ["matches"]) true fs' = (fs', none) := by
    unfold mkdir
    rw [if_pos hex, if_pos (by rw [hdir]; rfl)]
  have hdl : (ad ++ ["matches", matchFileName md.match_number]).dropLast
      = ad ++ ["matches"] := by
    rw [show ad ++ ["matches", matchFileName md.match_number]
        = (ad ++ ["matches"]) ++ [matchFileName md.match_number] by simp]
    exact dropLast_append_singleton _ _
  have hnd : fs'.isDir (ad ++ ["matches", matchFileName md.match_number])
      = false := by
    unfold FS.isDir; rw [h1]; rfl
  have hpar : parentOk fs' (ad ++ ["matches", matchFileName md.match_number])
      = true := by
    unfold parentOk
    rw [hdl, hdir, Bool.or_true]
  have hrun : archive_match_file ctx ad md fs'
      = (fsSet fs' (ad ++ ["matches", matchFileName md.match_number])
          (Node.file c), none) := by
    unfold archive_match_file
    rw [andThen_ok _ _ _ _ hmk2]
    show copyFile ctx.matchFile (ad ++ ["matches", matchFileName md.match_number])
      fs' = _
    unfold copyFile
    rw [h3]
    show writeText (ad ++ ["matches", matchFileName md.match_number]) c fs' = _
    unfold writeText
    rw [if_neg (by rw [hnd]; exact Bool.false_ne_true), if_pos hpar]
  refine ⟨?_, ?_, ?_⟩
  · rw [hrun]
  · rw [hrun]
    show FS.lookup (fsSet fs' _ (Node.file c)) _ = _
    rw [lookup_fsSet, if_pos rfl]
  · intro q
    rw [hrun]
    show FS.lookup (fsSet fs' _ (Node.file c)) q = fs'.lookup q
    rw [lookup_fsSet]
    by_cases hq : ad ++ ["matches", matchFileName md.match_number] = q
    · rw [if_pos hq, ← hq, h1]
    · rw [if_neg hq]

/-! ### `archive_match_recordings` characterization -/

theorem lookup_mem (fs : FS) (p : Path) (n : Node)
    (h : fs.lookup p = some n) : (p, n) ∈ fs := by
  unfold FS.lookup at h
  rcases hf : List.find? (fun e => e.1 == p) fs with _ | e
  · rw [hf] at h; exact Option.noConfusion h
  · rw [hf] at h
    injection h with h2
    have hmem := List.mem_of_find?_eq_some hf
    have hpred := List.find?_some hf
    have hp : e.1 = p := eq_of_beq hpred
    have : e = (p, n) := by
      rcases e with ⟨e1, e2⟩
      simp only at h2 hp
      rw [hp, h2]
    exact this ▸ hmem

theorem mem_lookup (fs : FS) (p : Path) (n : Node)
    (hnd : nodupKeys fs = true) (h : (p, n) ∈ fs) : fs.lookup p = some n := by
  induction fs with
  | nil => exact absurd h (List.not_mem_nil _)
  | cons e fs ih =>
    obtain ⟨hnd1, hnd2⟩ := nodupKeys_cons e fs hnd
    rcases List.mem_cons.1 h with rfl | hmem
    · rw [FS.lookup_cons, if_pos rfl]
    · rw [FS.lookup_cons]
      have hne : e.1 ≠ p := by
        intro he
        have : fs.any (fun x => x.1 == e.1) = true :=
          List.any_eq_true.2 ⟨(p, n), hmem, by simp [he]⟩
        rw [hnd1] at this; exact Bool.noConfusion this
      rw [if_neg hne]
      exact ih hnd2 hmem

theorem nodupKeys_filter (fs : FS) (pr : Path × Node → Bool)
    (hnd : nodupKeys fs = true) : nodupKeys (fs.filter pr) = true := by
  induction fs with
  | nil => rfl
  | cons e fs ih =>
    obtain ⟨hnd1, hnd2⟩ := nodupKeys_cons e fs hnd
    by_cases hp : pr e = true
    · rw [List.filter_cons_of_pos hp]
      unfold nodupKeys
      rw [Bool.and_eq_true]
      refine ⟨?_, ih hnd2⟩
      rw [Bool.not_eq_true']
      rcases Bool.eq_false_or_eq_true
        ((List.filter pr fs).any (fun x => x.1 == e.1)) with ht | hf
      · exfalso
        obtain ⟨x, hx, hxe⟩ := List.any_eq_true.1 ht
        have hcontra : fs.any (fun x => x.1 == e.1) = true :=
          List.any_eq_true.2 ⟨x, List.mem_of_mem_filter hx, hxe⟩
        rw [hnd1] at hcontra; exact Bool.noConfusion hcontra
      · exact hf
    · rw [List.filter_cons_of_neg hp]
      exact ih hnd2

theorem getLastD_append_singleton (l : Path) (a d : String) :
    (l ++ [a]).getLastD d = a := by simp

theorem eq_dropLast_append_getLastD (l : Path) (h : l ≠ []) :
    l = l.dropLast ++ [l.getLastD ""] := by
  have h1 := List.dropLast_append_getLast h
  rw [List.getLastD_eq_getLast?, List.getLast?_eq_getLast l h]
  simpa using h1.symm

theorem append_singleton_ne (l : Path) (a : String) : l ≠ l ++ [a] := by
  intro he
  have := congrArg List.length he
  simp at this

theorem append_singleton_inj (l : Path) (a b : String)
    (h : l ++ [a] = l ++ [b]) : a = b := by
  have := List.append_cancel_left h
  injection this

theorem lookup_foldl_fsSet_frame (moved : List (Path × Node)) (fs : FS)
    (q : Path) (h : ∀ en ∈ moved, en.1 ≠ q) :
    FS.lookup (moved.foldl (fun a e => fsSet a e.1 e.2) fs) q = fs.lookup q := by
  induction moved generalizing fs with
  | nil => rfl
  | cons e moved ih =>
    have hstep : (e :: moved).foldl (fun a e => fsSet a e.1 e.2) fs
        = moved.foldl (fun a e => fsSet a e.1 e.2) (fsSet fs e.1 e.2) := rfl
    rw [hstep, ih _ (fun en hen => h en (List.mem_cons_of_mem _ hen)),
      lookup_fsSet, if_neg (h e (List.mem_cons_self _ _))]

theorem pathExists_foldl_fsSet (moved : List (Path × Node)) (fs : FS) (p : Path)
    (h : FS.pathExists fs p = true ∨ ∃ n, (p, n) ∈ moved) :
    FS.pathExists (moved.foldl (fun a e => fsSet a e.1 e.2) fs) p = true := by
  induction moved generalizing fs with
  | nil =>
    rcases h with h | ⟨n, hn⟩
    · exact h
    · exact absurd hn (List.not_mem_nil _)
  | cons e moved ih =>
    have hstep : (e :: moved).foldl (fun a e => fsSet a e.1 e.2) fs
        = moved.foldl (fun a e => fsSet a e.1 e.2) (fsSet fs e.1 e.2) := rfl
    rw [hstep]
    rcases h with h | ⟨n, hn⟩
    · refine ih _ (Or.inl ?_)
      unfold FS.pathExists at h ⊢
      rw [lookup_fsSet]
      by_cases he : e.1 = p
      · rw [if_pos he]; rfl
      · rw [if_neg he]; exact h
    · rcases List.mem_cons.1 hn with heq | hmem
      · refine ih _ (Or.inl ?_)
        unfold FS.pathExists
        rw [lookup_fsSet, if_pos (congrArg Prod.fst heq).symm]
        rfl
      · exact ih _ (Or.inr ⟨n, hmem⟩)

/-- A successful run of the recordings copy loop: every matched source file
(all directly inside the source directory `sd`, with distinct names) gets a
copy in `rd` under its base name, and nothing else changes. -/
theorem copyRecordings_ok (rd sd : Path) (l : List (Path × Node)) (fs0 : FS)
    (hne : sd ≠ rd)
    (hsrc : ∀ e ∈ l, e.1 = sd ++ [e.1.getLastD ""] ∧
      (∃ c, e.2 = Node.file c) ∧ fs0.lookup e.1 = some e.2)
    (hrd : fs0.isDir rd = true)
    (htg : ∀ e ∈ l, fs0.isDir (rd ++ [e.1.getLastD ""]) = false)
    (hnd : nodupKeys l = true) :
    ∃ fsR, copyRecordings rd l fs0 = (fsR, none) ∧
      (∀ e ∈ l, fsR.lookup (rd ++ [e.1.getLastD ""]) = some e.2) ∧
      (∀ q, (∀ e ∈ l, q ≠ rd ++ [e.1.getLastD ""]) →
        fsR.lookup q = fs0.lookup q) := by
  induction l generalizing fs0 with
  | nil =>
    exact ⟨fs0, rfl, fun e he => absurd he (List.not_mem_nil _), fun q _ => rfl⟩
  | cons e l ih =>
    obtain ⟨hnd1, hnd2⟩ := nodupKeys_cons e l hnd
    obtain ⟨he1, ⟨c, hc⟩, helk⟩ := hsrc e (List.mem_cons_self _ _)
    have hd : ¬ (fs0.isDir (rd ++ [e.1.getLastD ""]) = true) := by
      rw [htg e (List.mem_cons_self _ _)]
      exact Bool.false_ne_true
    have hp : parentOk fs0 (rd ++ [e.1.getLastD ""]) = true := by
      unfold parentOk
      rw [dropLast_append_singleton, hrd, Bool.or_true]
    have hstep : copyIntoDir e.1 rd fs0
        = (fsSet fs0 (rd ++ [e.1.getLastD ""]) (Node.file c), none) := by
      unfold copyIntoDir copyFile
      rw [helk, hc]
      show writeText (rd ++ [e.1.getLastD ""]) c fs0 = _
      unfold writeText
      rw [if_neg hd, if_pos hp]
    have hsrc' : ∀ e' ∈ l, e'.1 = sd ++ [e'.1.getLastD ""] ∧
        (∃ c', e'.2 = Node.file c') ∧
        (fsSet fs0 (rd ++ [e.1.getLastD ""]) (Node.file c)).lookup e'.1
          = some e'.2 := by
      intro e' he'
      obtain ⟨h1', hex', hlk'⟩ := hsrc e' (List.mem_cons_of_mem _ he')
      refine ⟨h1', hex', ?_⟩
      rw [lookup_fsSet, if_neg ?hne1]
      · exact hlk'
      case hne1 =>
        intro hee
        apply hne
        have hdl := congrArg List.dropLast hee
        rw [dropLast_append_singleton] at hdl
        rw [h1', dropLast_append_singleton] at hdl
        exact hdl.symm
    have hrd' : (fsSet fs0 (rd ++ [e.1.getLastD ""]) (Node.file c)).isDir rd
        = true := by
      unfold FS.isDir at hrd ⊢
      rw [lookup_fsSet, if_neg (append_singleton_ne rd _).symm]
      exact hrd
    have htg' : ∀ e' ∈ l,
        (fsSet fs0 (rd ++ [e.1.getLastD ""]) (Node.file c)).isDir
          (rd ++ [e'.1.getLastD ""]) = false := by
      intro e' he'
      unfold FS.isDir
      by_cases heq : rd ++ [e.1.getLastD ""] = rd ++ [e'.1.getLastD ""]
      · rw [lookup_fsSet, if_pos heq]
        rfl
      · rw [lookup_fsSet, if_neg heq]
        exact htg e' (List.mem_cons_of_mem _ he')
    obtain ⟨fsR, hR, hcop, hfr⟩ :=
      ih (fsSet fs0 (rd ++ [e.1.getLastD ""]) (Node.file c)) hsrc' hrd' htg' hnd2
    have hheadne : ∀ e' ∈ l, rd ++ [e.1.getLastD ""] ≠ rd ++ [e'.1.getLastD ""] := by
      intro e' he' hee
      have hnn := append_singleton_inj rd _ _ hee
      obtain ⟨h1', -, -⟩ := hsrc e' (List.mem_cons_of_mem _ he')
      have : e'.1 = e.1 := by rw [h1', he1, hnn]
      have hany : l.any (fun x => x.1 == e.1) = true :=
        List.any_eq_true.2 ⟨e', he', by simp [this]⟩
      rw [hnd1] at hany
      exact Bool.noConfusion hany
    refine ⟨fsR, ?_, ?_, ?_⟩
    · show andThen (copyIntoDir e.1 rd) (copyRecordings rd l) fs0 = (fsR, none)
      rw [andThen_ok _ _ _ _ hstep]
      exact hR
    · intro e' he'
      rcases List.mem_cons.1 he' with rfl | hm
      · rw [hfr _ (hheadne), lookup_fsSet, if_pos rfl, hc]
      · exact hcop e' hm
    · intro q hq
      rw [hfr q (fun e' he' => hq e' (List.mem_cons_of_mem _ he')),
        lookup_fsSet, if_neg (fun hh => hq e (List.mem_cons_self _ _) hh.symm)]

/-- C5: after `archive_match_recordings` (under the layout side conditions a
real recording output satisfies), every file whose name shares the engine's
recording stem (any extension) has a copy in `{archives_dir}/recordings/`, the
shared textures directory is present at `{archives_dir}/recordings/textures`,
and the operation reports no error — also when `recordings/textures` already
exists from a previous match. -/
theorem C5_archive_match_recordings_collates (ctx : Ctx) (ad : Path) (fs : FS)
    (hadsd : ad ≠ ctx.recStemDir)
    (hsdrd : ctx.recStemDir ≠ ad ++ ["recordings"])
    (htexrd : ctx.recStemDir ++ ["textures"] ≠ ad ++ ["recordings"])
    (hdirad : fs.isDir ad = true)
    (hrecok : fs.pathExists (ad ++ ["recordings"]) = false ∨
      fs.isDir (ad ++ ["recordings"]) = true)
    (hndfs : nodupKeys fs = true)
    (hfiles : ∀ e ∈ globMatches ctx fs, e.2 ≠ Node.dir)
    (hnonnil : ∀ e ∈ globMatches ctx fs, e.1 ≠ [])
    (htgfs : ∀ e ∈ globMatches ctx fs,
      fs.isDir ((ad ++ ["recordings"]) ++ [e.1.getLastD ""]) = false)
    (htex : fs.lookup (ctx.recStemDir ++ ["textures"]) = some Node.dir) :
    (archive_match_recordings ctx ad fs).2 = none ∧
    (∀ n c, fs.lookup (ctx.recStemDir ++ [n]) = some (Node.file c) →
      (ctx.recStemName ++ ".").data.isPrefixOf n.data = true →
      FS.lookup ((archive_match_recordings ctx ad fs).1)
        ((ad ++ ["recordings"]) ++ [n]) = some (Node.file c)) ∧
    FS.pathExists ((archive_match_recordings ctx ad fs).1)
      ((ad ++ ["recordings"]) ++ ["textures"]) = true := by
  -- step 1: the recordings directory is in place
  have hmk : ∃ fs1, mkdir (ad ++ ["recordings"]) true fs = (fs1, none) ∧
      globMatches ctx fs1 = globMatches ctx fs ∧
      (∀ q, q ≠ ad ++ ["recordings"] → fs1.lookup q = fs.lookup q) ∧
      fs1.isDir (ad ++ ["recordings"]) = true := by
    rcases hrecok with hnr | hrdir
    · have hfind : List.find? (fun e => e.1 == ad ++ ["recordings"]) fs = none := by
        unfold FS.pathExists FS.lookup at hnr
        rcases hf : List.find? (fun e => e.1 == ad ++ ["recordings"]) fs with _ | e
        · exact hf
        · rw [hf] at hnr; exact absurd hnr (by simp)
      have hfilter : fs.filter (fun e => !(e.1 == ad ++ ["recordings"])) = fs := by
        rw [List.filter_eq_self]
        intro e he
        simpa using List.find?_eq_none.1 hfind e he
      have hm : mkdir (ad ++ ["recordings"]) true fs
          = (fsSet fs (ad ++ ["recordings"]) Node.dir, none) := by
        unfold mkdir
        rw [if_neg (by rw [hnr]; exact Bool.false_ne_true), if_pos (by
          unfold parentOk
          rw [dropLast_append_singleton, hdirad, Bool.or_true])]
      refine ⟨fsSet fs (ad ++ ["recordings"]) Node.dir, hm, ?_, ?_, ?_⟩
      · unfold globMatches fsSet
        rw [hfilter, List.filter_cons_of_neg ?hpred]
        case hpred =>
          intro hb
          rw [Bool.and_eq_true] at hb
          have hdp : (ad ++ ["recordings"]).dropLast = ctx.recStemDir :=
            eq_of_beq hb.1
          rw [dropLast_append_singleton] at hdp
          exact hadsd hdp
      · intro q hq
        rw [lookup_fsSet, if_neg (fun he => hq he.symm)]
      · unfold FS.isDir
        rw [lookup_fsSet, if_pos rfl]
        rfl
    · have hex : fs.pathExists (ad ++ ["recordings"]) = true := by
        unfold FS.pathExists
        unfold FS.isDir at hrdir
        rw [eq_of_beq hrdir]
        rfl
      have hm : mkdir (ad ++ ["recordings"]) true fs = (fs, none) := by
        unfold mkdir
        rw [if_pos hex, if_pos (by rw [hrdir]; rfl)]
      exact ⟨fs, hm, rfl, fun q _ => rfl, hrdir⟩
  obtain ⟨fs1, hmk, hglobeq, hfs1fr, hfs1rd⟩ := hmk
  -- step 2: the copy loop succeeds
  have hmemglob : ∀ e ∈ globMatches ctx fs, e ∈ fs ∧
      e.1.dropLast = ctx.recStemDir ∧
      (ctx.recStemName ++ ".").data.isPrefixOf (e.1.getLastD "").data = true := by
    intro e he
    obtain ⟨hm, hp⟩ := List.mem_filter.1 he
    rw [Bool.and_eq_true] at hp
    exact ⟨hm, eq_of_beq hp.1, hp.2⟩
  have hsrcl : ∀ e ∈ globMatches ctx fs,
      e.1 = ctx.recStemDir ++ [e.1.getLastD ""] ∧
      (∃ c, e.2 = Node.file c) ∧ fs1.lookup e.1 = some e.2 := by
    intro e he
    obtain ⟨hm, hdl, hpf⟩ := hmemglob e he
    have hshape : e.1 = ctx.recStemDir ++ [e.1.getLastD ""] := by
      have hsh := eq_dropLast_append_getLastD e.1 (hnonnil e he)
      rw [hdl] at hsh
      exact hsh
    refine ⟨hshape, ?_, ?_⟩
    · rcases hn : e.2 with c | _
      · exact ⟨c, rfl⟩
      · exact absurd hn (hfiles e he)
    · have hne_rd : e.1 ≠ ad ++ ["recordings"] := by
        intro hh
        apply hadsd
        have hdd := congrArg List.dropLast hh
        rw [hdl, dropLast_append_singleton] at hdd
        exact hdd.symm
      rw [hfs1fr e.1 hne_rd]
      exact mem_lookup fs e.1 e.2 hndfs hm
  have htgl : ∀ e ∈ globMatches ctx fs,
      fs1.isDir ((ad ++ ["recordings"]) ++ [e.1.getLastD ""]) = false := by
    intro e he
    unfold FS.isDir at htgfs ⊢
    rw [hfs1fr _ (Ne.symm (append_singleton_ne _ _))]
    exact htgfs e he
  have hndl : nodupKeys (globMatches ctx fs) = true := nodupKeys_filter fs _ hndfs
  obtain ⟨fsR, hRloop, hcop, hfrloop⟩ := copyRecordings_ok (ad ++ ["recordings"])
    ctx.recStemDir (globMatches ctx fs) fs1 hsdrd hsrcl hfs1rd htgl hndl
  -- the whole run up to the textures copy
  have hres2 : archive_match_recordings ctx ad fs =
      (match copytree (ctx.recStemDir ++ ["textures"])
          ((ad ++ ["recordings"]) ++ ["textures"]) fsR with
       | (fs3, some Err.fileExists) => (fs3, none)
       | r => r) := by
    simp only [archive_match_recordings]
    rw [hmk]
    show (match copyRecordings (ad ++ ["recordings"]) (globMatches ctx fs1) fs1 with
      | (fs2, some e) => (fs2, some e)
      | (fs2, none) =>
          match copytree (ctx.recStemDir ++ ["textures"])
              ((ad ++ ["recordings"]) ++ ["textures"]) fs2 with
          | (fs3, some Err.fileExists) => (fs3, none)
          | r => r) = _
    rw [hglobeq, hRloop]
  -- the copies, in `fsR` form
  have hcopies : ∀ n c, fs.lookup (ctx.recStemDir ++ [n]) = some (Node.file c) →
      (ctx.recStemName ++ ".").data.isPrefixOf n.data = true →
      fsR.lookup ((ad ++ ["recordings"]) ++ [n]) = some (Node.file c) := by
    intro n c hlk hpref
    have hmem : ((ctx.recStemDir ++ [n], Node.file c) : Path × Node) ∈ fs :=
      lookup_mem fs _ _ hlk
    have hing : ((ctx.recStemDir ++ [n], Node.file c) : Path × Node)
        ∈ globMatches ctx fs := by
      refine List.mem_filter.2 ⟨hmem, ?_⟩
      rw [Bool.and_eq_true]
      constructor
      · rw [dropLast_append_singleton]
        exact beq_self_eq_true _
      · rw [getLastD_append_singleton]
        exact hpref
    have hc := hcop _ hing
    rw [getLastD_append_singleton] at hc
    exact hc
  -- the textures source survives the loop
  have hsrcR : fsR.lookup (ctx.recStemDir ++ ["textures"]) = some Node.dir := by
    rw [hfrloop _ ?hnotarget, hfs1fr _ htexrd]
    · exact htex
    case hnotarget =>
      intro e he hee
      apply hsdrd
      have hdd := congrArg List.dropLast hee
      rw [dropLast_append_singleton, dropLast_append_singleton] at hdd
      exact hdd
  by_cases hE : FS.pathExists fsR ((ad ++ ["recordings"]) ++ ["textures"]) = true
  · -- textures already present: FileExistsError is swallowed
    have hct : copytree (ctx.recStemDir ++ ["textures"])
        ((ad ++ ["recordings"]) ++ ["textures"]) fsR
        = (fsR, some Err.fileExists) := by
      unfold copytree
      rw [if_pos hE]
    have hres3 : archive_match_recordings ctx ad fs = (fsR, none) := by
      rw [hres2, hct]
    rw [hres3]
    exact ⟨rfl, hcopies, hE⟩
  · -- textures freshly copied
    have hEf : FS.pathExists fsR ((ad ++ ["recordings"]) ++ ["textures"])
        = false := Bool.eq_false_iff.2 hE
    have hdirsrc : fsR.isDir (ctx.recStemDir ++ ["textures"]) = true := by
      unfold FS.isDir
      rw [hsrcR]
      rfl
    have hct : copytree (ctx.recStemDir ++ ["textures"])
        ((ad ++ ["recordings"]) ++ ["textures"]) fsR
        = (((fsR.filter
              (fun e => (ctx.recStemDir ++ ["textures"]).isPrefixOf e.1)).map
            (fun e => ((ad ++ ["recordings"]) ++ ["textures"]
              ++ e.1.drop (ctx.recStemDir ++ ["textures"]).length, e.2))).foldl
            (fun a e => fsSet a e.1 e.2) fsR, none) := by
      unfold copytree
      rw [if_neg hE, if_pos hdirsrc]
    have hres3 : archive_match_recordings ctx ad fs
        = (((fsR.filter
              (fun e => (ctx.recStemDir ++ ["textures"]).isPrefixOf e.1)).map
            (fun e => ((ad ++ ["recordings"]) ++ ["textures"]
              ++ e.1.drop (ctx.recStemDir ++ ["textures"]).length, e.2))).foldl
            (fun a e => fsSet a e.1 e.2) fsR, none) := by
      rw [hres2, hct]
    rw [hres3]
    refine ⟨rfl, ?_, ?_⟩
    · -- copies survive the textures fold
      intro n c hlk hpref
      have hcR := hcopies n c hlk hpref
      have hframe : ∀ en ∈ (fsR.filter
          (fun e => (ctx.recStemDir ++ ["textures"]).isPrefixOf e.1)).map
          (fun e => ((ad ++ ["recordings"]) ++ ["textures"]
            ++ e.1.drop (ctx.recStemDir ++ ["textures"]).length, e.2)),
          en.1 ≠ (ad ++ ["recordings"]) ++ [n] := by
        intro en hen hee
        obtain ⟨e', he', rfl⟩ := List.mem_map.1 hen
        have hee' : (ad ++ ["recordings"]) ++ ["textures"]
            ++ List.drop (List.length (ctx.recStemDir ++ ["textures"])) e'.1
            = (ad ++ ["recordings"]) ++ [n] := hee
        have hlen' : (List.drop (List.length (ctx.recStemDir ++ ["textures"]))
            e'.1).length = 0 := by
          have hlen := congrArg List.length hee'
          simp only [List.length_append, List.length_cons, List.length_nil]
            at hlen ⊢
          omega
        have hrel := List.length_eq_zero.1 hlen'
        rw [hrel, List.append_nil] at hee'
        have hpe : FS.pathExists fsR ((ad ++ ["recordings"]) ++ ["textures"])
            = true := by
          unfold FS.pathExists
          rw [hee', hcR]
          rfl
        rw [hEf] at hpe
        exact Bool.noConfusion hpe
      rw [lookup_foldl_fsSet_frame _ _ _ hframe]
      exact hcR
    · -- the textures directory now exists
      have hsrcmem : ((ctx.recStemDir ++ ["textures"], Node.dir) : Path × Node)
          ∈ fsR := lookup_mem _ _ _ hsrcR
      have hfil : ((ctx.recStemDir ++ ["textures"], Node.dir) : Path × Node)
          ∈ fsR.filter
            (fun e => (ctx.recStemDir ++ ["textures"]).isPrefixOf e.1) :=
        List.mem_filter.2 ⟨hsrcmem,
          List.isPrefixOf_iff_prefix.2 (List.prefix_refl _)⟩
      have hmmap : (((ad ++ ["recordings"]) ++ ["textures"]
          ++ List.drop (List.length (ctx.recStemDir ++ ["textures"]))
            (ctx.recStemDir ++ ["textures"]), Node.dir) : Path × Node)
          ∈ (fsR.filter
              (fun e => (ctx.recStemDir ++ ["textures"]).isPrefixOf e.1)).map
            (fun e => ((ad ++ ["recordings"]) ++ ["textures"]
              ++ e.1.drop (ctx.recStemDir ++ ["textures"]).length, e.2)) :=
        List.mem_map.2 ⟨_, hfil, rfl⟩
      have hdst : (ad ++ ["recordings"]) ++ ["textures"]
          ++ List.drop (List.length (ctx.recStemDir ++ ["textures"]))
            (ctx.recStemDir ++ ["textures"])
          = (ad ++ ["recordings"]) ++ ["textures"] := by
        rw [List.drop_length, List.append_nil]
      rw [hdst] at hmmap
      exact pathExists_foldl_fsSet _ _ _ (Or.inr ⟨Node.dir, hmmap⟩)

/-! ### Concrete instances used to exercise the theorems -/

/-- Witness for C3 at a concrete input: engine exit code 7 with supervisor log
contents `error X`. -/
theorem C3_nonzero_exit_prints_log_then_summary_witness :
    (main ctx0 (Engine.run eff0 7) ["ad"] ["arena"] md0 w0).2
      = Outcome.exited 1 := by
  have h := (C3_nonzero_exit_prints_log_then_summary ctx0 eff0 7 ["ad"] ["arena"]
    md0 w0 fs1c "error X" (by decide) (by decide)).1 (by decide)
  rw [h]

/-- Witness for C1 at a concrete input: team `abc` staged into zone 0, zone 1
left absent. -/
theorem C1_prepare_match_stages_exactly_witness :
    FS.lookup fsC1' (ctx0.zonePath 0) = some Node.dir ∧
    FS.lookup fsC1' (ctx0.zonePath 1) = none := by
  have h := C1_prepare_match_stages_exactly ctx0 ["ad"] mdC1 fsC1 fsC1'
    (by decide) (by decide) (by decide) (by decide)
  constructor
  · exact ((h 0 (by decide)).2 "abc" (by decide)).1
  · exact (h 1 (by decide)).1 (by decide) (ctx0.zonePath 1) (List.prefix_refl _)

/-- Witness for C8 at a concrete input: team `zzz` has no `zzz.zip`, and the
orchestration aborts with the archive-not-found error. -/
theorem C8_staging_failure_is_fatal_witness :
    (main ctx0 Engine.notFound ["ad"] ["arena"] ⟨9, [some "zzz"], 10, none⟩ w0).2
      = Outcome.raised Err.fileNotFound := by
  have h := (C8_staging_failure_is_fatal ctx0 ["ad"] ["arena"]
      ⟨9, [some "zzz"], 10, none⟩ w0 [] [] "zzz"
      [(["arena", "mode.txt"], Node.file "comp\n"),
       (["arena"], Node.dir), (["ad"], Node.dir)]
      [(["arena", "match.json"], Node.file "match 9"),
       (["arena", "mode.txt"], Node.file "comp\n"),
       (["arena"], Node.dir), (["ad"], Node.dir)]
      [(["arena", "match.json"], Node.file "match 9"),
       (["arena", "mode.txt"], Node.file "comp\n"),
       (["arena"], Node.dir), (["ad"], Node.dir)]
      [(["arena", "zone-0"], Node.dir),
       (["arena", "match.json"], Node.file "match 9"),
       (["arena", "mode.txt"], Node.file "comp\n"),
       (["arena"], Node.dir), (["ad"], Node.dir)]
      Engine.notFound
      (by decide) (by decide) (by decide) (by decide) (by decide)).1 (by decide)
  rw [h.2]

/-- Witness for C9 at a concrete input: zone 0 staged, zone 1's archive
missing; the failing run still left the mode marker behind. -/
theorem C9_staging_not_atomic_witness :
    FS.lookup
      ((prepare_match ctx0 ["ad"] ⟨4, [some "abc", some "zzz"], 100, none⟩
        fsC1).1) ctx0.modeFile = some (Node.file "comp\n") := by
  have h := C9_staging_not_atomic ctx0 ["ad"]
    ⟨4, [some "abc", some "zzz"], 100, none⟩ fsC1
    [(["arena", "mode.txt"], Node.file "comp\n"), (["arena"], Node.dir),
     (["ad"], Node.dir), (["ad", "abc.zip"], Node.file "code")]
    [(["arena", "match.json"], Node.file "match 4"),
     (["arena", "mode.txt"], Node.file "comp\n"), (["arena"], Node.dir),
     (["ad"], Node.dir), (["ad", "abc.zip"], Node.file "code")]
    [(["arena", "zone-0", "robot.py"], Node.file "code"),
     (["arena", "zone-0"], Node.dir),
     (["arena", "match.json"], Node.file "match 4"),
     (["arena", "mode.txt"], Node.file "comp\n"), (["arena"], Node.dir),
     (["ad"], Node.dir), (["ad", "abc.zip"], Node.file "code")]
    [(["arena", "zone-1"], Node.dir),
     (["arena", "zone-0", "robot.py"], Node.file "code"),
     (["arena", "zone-0"], Node.dir),
     (["arena", "match.json"], Node.file "match 4"),
     (["arena", "mode.txt"], Node.file "comp\n"), (["arena"], Node.dir),
     (["ad"], Node.dir), (["ad", "abc.zip"], Node.file "code")]
    [some "abc"] [] "zzz"
    (by decide) (by decide) (by decide) (by decide) (by decide)
    (Or.inl (by decide))
    (by decide) (by decide) (by decide) (by decide)
  obtain ⟨e, -, hprep⟩ := h.1
  rw [hprep]
  exact h.2.1

/-- Witness for C5 at a concrete input: `clip.mp4` is copied into
`recordings/` and `recordings/textures` exists afterwards. -/
theorem C5_archive_match_recordings_collates_witness :
    FS.lookup ((archive_match_recordings ctx0 ["ad"] fsC5).1)
      ((["ad"] ++ ["recordings"]) ++ ["clip.mp4"]) = some (Node.file "video") ∧
    FS.pathExists ((archive_match_recordings ctx0 ["ad"] fsC5).1)
      ((["ad"] ++ ["recordings"]) ++ ["textures"]) = true := by
  have h := C5_archive_match_recordings_collates ctx0 ["ad"] fsC5
    (by decide) (by decide) (by decide) (by decide) (by decide) (by decide)
    (by decide) (by decide) (by decide) (by decide)
  exact ⟨h.2.1 "clip.mp4" "video" (by decide) (by decide), h.2.2⟩

/-- Witness for C6 at a concrete input: match 7 lands in `matches/007.yaml`. -/
theorem C6_archive_match_file_padded_copy_witness :
    FS.lookup fsC6' (["ad"] ++ ["matches", matchFileName 7])
      = some (Node.file "scores") :=
  (C6_archive_match_file_padded_copy ctx0 ["ad"] md0 fsC6 fsC6' "scores"
    (by decide) (by decide)).1

/-- Witness for C7 at a concrete input: the second run succeeds. -/
theorem C7_archive_match_file_idempotent_witness :
    (archive_match_file ctx0 ["ad"] md0 fsC6').2 = none :=
  (C7_archive_match_file_idempotent ctx0 ["ad"] md0 fsC6 fsC6' "scores"
    (by decide) (by decide)).1

/-- Witness for C4 at a concrete input. -/
theorem C4_missing_engine_terminates_without_archive_writes_witness :
    (main ctx0 Engine.notFound ["ad"] ["arena"] md0 w0).2 = Outcome.exited 1 := by
  exact (C4_missing_engine_terminates_without_archive_writes ctx0 ["ad"] ["arena"]
    md0 w0 fs1c (by decide) (by decide) (by decide)
    (by intro k hk; simp [md0] at hk)
    (by decide) (by decide)).1

end MatchSim
